import Mathlib

/-!
# Recipe optimizer: scoring and ingredient matching

A shallow embedding of `backend/services/optimizationService.js` and of the
handlers of `POST /recipes`, `POST /match-ingredients` and
`POST /substitutions` in `backend/routes/optimizationRoutes.js`, and the
properties of their scoring, matching, substitution and ranking functions.

Modelling conventions.

* A JavaScript number is an exact rational or `NaN` (`JsNum`).  IEEE rounding
  error, overflow and signed zero are not modelled, so the value of an
  arithmetic expression can differ from the engine's in the last place, and its
  `Math.round` by one.  A theorem below therefore fixes a rounded result through
  the expression the code evaluates, or bounds it, or compares two of them; the
  integer results named in the examples are the engine's as well.
  The only division by zero the service can perform on finite inputs is `0 / 0`
  (a recipe without ingredients), which is `NaN`; every other divisor is guarded
  by a truthiness test.
* A property or argument that may be absent is an `Option`: `none` is
  `undefined` (for the available list also `null`, which behaves alike there).
* A `TypeError` raised by reading a property of `undefined`/`null` is the
  `Except.error` result.
* `String.prototype.toLowerCase` is modelled on the ASCII letters; the theorems
  about matching use it only through the strings it returns.
* The storage collaborator is a parameter: the fetched recipes are a list, the
  substitution lookup is a function of the key that may fail.  An awaited call
  is the call; nothing runs concurrently.
* `Array.prototype.sort` is the engine's binary insertion sort.  The language
  fixes its result, the stable sort, only when the comparator is consistent,
  which here means numeric scores; a score `NaN` makes the comparator return
  `NaN`, and what the engine then does is modelled step by step.
-/

namespace RecipeOptimizer

/-! ## JavaScript values -/

/-- The exceptions the service can meet: a `TypeError` of its own, or a failed
lookup in the storage collaborator. -/
inductive JsError where
  | typeError
  | storageError
  deriving DecidableEq

deriving instance DecidableEq for Except

/-- A JavaScript number: an exact rational or `NaN`. -/
inductive JsNum where
  | num (q : ℚ)
  | nan
  deriving DecidableEq

namespace JsNum

/-- The operator `a + b`. -/
def add : JsNum → JsNum → JsNum
  | num a, num b => num (a + b)
  | _, _ => nan

/-- The operator `a - b`. -/
def sub : JsNum → JsNum → JsNum
  | num a, num b => num (a - b)
  | _, _ => nan

/-- The operator `a * b`. -/
def mul : JsNum → JsNum → JsNum
  | num a, num b => num (a * b)
  | _, _ => nan

/-- The operator `a / b`; `0 / 0` is `NaN` (a non-zero numerator over zero does
not occur in the service, see the header). -/
def div : JsNum → JsNum → JsNum
  | num a, num b => if b = 0 then nan else num (a / b)
  | _, _ => nan

/-- The function `Math.abs`. -/
def abs : JsNum → JsNum
  | num a => num |a|
  | nan => nan

/-- The function `Math.max` of two arguments: `NaN` if either is `NaN`. -/
def max : JsNum → JsNum → JsNum
  | num a, num b => num (Max.max a b)
  | _, _ => nan

/-- The function `Math.round`: the nearest integer, a tie going up. -/
def round : JsNum → JsNum
  | num a => num (Rat.floor (a + 1 / 2))
  | nan => nan

/-- The comparison `a <= b`: false when either side is `NaN`. -/
def le : JsNum → JsNum → Bool
  | num a, num b => decide (a ≤ b)
  | _, _ => false

/-- The comparison `a >= b`: false when either side is `NaN`. -/
def ge : JsNum → JsNum → Bool
  | num a, num b => decide (b ≤ a)
  | _, _ => false

/-- Truthiness of a number: neither `0` nor `NaN`. -/
def truthy : JsNum → Bool
  | num a => decide (a ≠ 0)
  | nan => false

end JsNum

/-- A numeric property read in an arithmetic context: `undefined` becomes
`NaN`. -/
def toNumber : Option ℚ → JsNum
  | some q => JsNum.num q
  | none => JsNum.nan

/-- The method `String.prototype.toLowerCase`, on the ASCII letters. -/
def toLowerCase (s : String) : String :=
  String.mk (s.data.map Char.toLower)

/-- The method `s.includes(t)`: `t` occurs in `s` as a contiguous run. -/
def includes (s t : String) : Bool :=
  decide (t.data <:+: s.data)

/-! ## Data model (`models/Recipe.js`, `models/UserPreference.js`) -/

/-- The `ingredientSchema` of `models/Recipe.js`. -/
structure Ingredient where
  name : String
  amount : ℚ
  unit : String
  category : String := "other"
  isOptional : Bool := false
  deriving DecidableEq

/-- The `nutritionSchema` of `models/Recipe.js`: every field is optional. -/
structure Nutrition where
  calories : Option ℚ := none
  protein : Option ℚ := none
  carbs : Option ℚ := none
  fat : Option ℚ := none
  fiber : Option ℚ := none
  sodium : Option ℚ := none
  deriving DecidableEq

/-- The fields of `recipeSchema` the optimizer reads, and the title. -/
structure Recipe where
  title : String := ""
  dietaryTags : List String := []
  ingredients : List Ingredient := []
  nutrition : Option Nutrition := none
  estimatedCost : Option ℚ := none
  deriving DecidableEq

/-- The `nutritionalGoals` object of the preferences. -/
structure NutritionalGoals where
  targetCalories : Option ℚ := none
  targetProtein : Option ℚ := none
  targetCarbs : Option ℚ := none
  targetFat : Option ℚ := none
  deriving DecidableEq

/-- The `budgetConstraints` object of the preferences. -/
structure BudgetConstraints where
  maxCostPerServing : Option ℚ := none
  preferBudgetOptions : Option Bool := none
  deriving DecidableEq

/-- The `userPreferences` object handed to `calculateRecipeScore`. -/
structure UserPreferences where
  dietaryRestrictions : Option (List String) := none
  nutritionalGoals : Option NutritionalGoals := none
  budgetConstraints : Option BudgetConstraints := none
  deriving DecidableEq

/-! ## Substitutions (`models/Substitution.js`) -/

/-- The `nutritionalImpact` object of a substitute. -/
structure NutritionalImpact where
  calories : ℚ := 0
  protein : ℚ := 0
  carbs : ℚ := 0
  fat : ℚ := 0
  deriving DecidableEq

/-- One element of `substitutes` in `substitutionSchema`. -/
structure Substitute where
  ingredient : String
  ratio : ℚ := 1
  dietaryBenefits : List String := []
  costFactor : ℚ := 1
  nutritionalImpact : NutritionalImpact := {}
  notes : Option String := none
  deriving DecidableEq

/-- The `substitutionSchema` document. -/
structure SubstitutionEntry where
  originalIngredient : String
  substitutes : List Substitute := []
  deriving DecidableEq

/-- The storage collaborator behind `Substitution.findOne`, as a function of
the `originalIngredient` key asked for: the entry, `none` when there is none,
or a failure. -/
abbrev SubstitutionStore := String → Except JsError (Option SubstitutionEntry)

/-- A store that holds a table of entries: the first entry under the key. -/
def tableStore (table : List SubstitutionEntry) : SubstitutionStore :=
  fun key => Except.ok (table.find? fun entry => entry.originalIngredient == key)

/-- A store whose every lookup fails. -/
def failingStore : SubstitutionStore :=
  fun _ => Except.error JsError.storageError

/-- An element of the result of `findSubstitutions`: the fields of
`sub.toObject()` and `adjustedAmount`. -/
structure FoundSubstitute where
  substitute : Substitute
  adjustedAmount : ℚ
  deriving DecidableEq

/-- A substitute of a suggestion of `calculateRecipeWithSubstitutions`: the
fields of `sub`, with `adjustedAmount` overwritten and `adjustedUnit` added. -/
structure AdjustedSubstitute where
  substitute : Substitute
  adjustedAmount : ℚ
  adjustedUnit : String
  deriving DecidableEq

/-- A suggestion pushed by `calculateRecipeWithSubstitutions`. -/
structure SubstitutionSuggestion where
  originalIngredient : Ingredient
  substitutes : List AdjustedSubstitute
  deriving DecidableEq

/-! ## The service (`services/optimizationService.js`) -/

/-- Lines 3-27.  The body of the `try` may fail in the lookup; the `catch`
returns the empty list. -/
def findSubstitutions (store : SubstitutionStore) (ingredientName : String)
    (dietaryRestrictions : List String := []) : Except JsError (List FoundSubstitute) :=
  try
    let substitutionEntry ← store (toLowerCase ingredientName)
    match substitutionEntry with
    | none => pure []
    | some entry =>
      pure ((entry.substitutes.filter fun sub =>
        if dietaryRestrictions.length = 0 then true
        else dietaryRestrictions.any fun restriction =>
          sub.dietaryBenefits.contains restriction).map fun sub =>
            { substitute := sub, adjustedAmount := sub.ratio })
  catch _ => pure []

/-- The callback of both `availableIngredients.some(...)` calls: the
case-folded substring test, in either direction. -/
def nameMatches (ingredient : Ingredient) (available : String) : Bool :=
  includes (toLowerCase available) (toLowerCase ingredient.name) ||
    includes (toLowerCase ingredient.name) (toLowerCase available)

/-- Lines 49-61.  `!availableIngredients || availableIngredients.length === 0`
returns `0`; otherwise the count of the filter over the length. -/
def calculateIngredientMatch (recipeIngredients : List Ingredient)
    (availableIngredients : Option (List String)) : JsNum :=
  match availableIngredients with
  | none => JsNum.num 0
  | some [] => JsNum.num 0
  | some (a :: as) =>
    let totalIngredients := recipeIngredients.length
    let matchedIngredients := (recipeIngredients.filter fun ingredient =>
      (a :: as).any (nameMatches ingredient) || ingredient.isOptional).length
    JsNum.div (JsNum.num matchedIngredients) (JsNum.num totalIngredients)

/-- Lines 63-69. -/
def checkDietaryCompliance (recipeTags : List String)
    (userRestrictions : Option (List String)) : JsNum :=
  match userRestrictions with
  | none => JsNum.num 1
  | some [] => JsNum.num 1
  | some (r :: rs) =>
    if (r :: rs).all fun restriction => recipeTags.contains restriction
    then JsNum.num 1 else JsNum.num 0

/-- A property read `recipeNutrition.field`: a `TypeError` when
`recipeNutrition` is absent, `undefined` (here `NaN`, as every use is
arithmetic) when only the field is. -/
def nutritionField (recipeNutrition : Option Nutrition) (field : Nutrition → Option ℚ) :
    Except JsError JsNum :=
  match recipeNutrition with
  | none => Except.error JsError.typeError
  | some nutrition => Except.ok (toNumber (field nutrition))

/-- Lines 71-92. -/
def calculateNutritionalAlignment (recipeNutrition : Option Nutrition)
    (nutritionalGoals : Option NutritionalGoals) : Except JsError JsNum :=
  match nutritionalGoals with
  | none => Except.ok (JsNum.num (1 / 2))
  | some goals => do
    let score := JsNum.num 0
    let factors : ℕ := 0
    let (score, factors) ←
      if (toNumber goals.targetCalories).truthy then do
        let calories ← nutritionField recipeNutrition Nutrition.calories
        let caloriesDiff := JsNum.abs (JsNum.sub calories (toNumber goals.targetCalories))
        let caloriesScore := JsNum.max (JsNum.num 0)
          (JsNum.sub (JsNum.num 1) (JsNum.div caloriesDiff (toNumber goals.targetCalories)))
        pure (JsNum.add score caloriesScore, factors + 1)
      else pure (score, factors)
    let (score, factors) ←
      if (toNumber goals.targetProtein).truthy then do
        let protein ← nutritionField recipeNutrition Nutrition.protein
        let proteinDiff := JsNum.abs (JsNum.sub protein (toNumber goals.targetProtein))
        let proteinScore := JsNum.max (JsNum.num 0)
          (JsNum.sub (JsNum.num 1) (JsNum.div proteinDiff (toNumber goals.targetProtein)))
        pure (JsNum.add score proteinScore, factors + 1)
      else pure (score, factors)
    if factors > 0 then pure (JsNum.div score (JsNum.num factors))
    else pure (JsNum.num (1 / 2))

/-- Lines 94-102.  An absent `recipeCost` compares false with every number. -/
def calculateCostEfficiency (recipeCost : Option ℚ)
    (budgetConstraints : Option BudgetConstraints) : JsNum :=
  match budgetConstraints with
  | none => JsNum.num (1 / 2)
  | some budget =>
    if !(toNumber budget.maxCostPerServing).truthy then JsNum.num (1 / 2)
    else if JsNum.le (toNumber recipeCost) (toNumber budget.maxCostPerServing) then
      JsNum.sub (JsNum.num 1)
        (JsNum.div (toNumber recipeCost) (toNumber budget.maxCostPerServing))
    else JsNum.num 0

/-- Lines 104-120. -/
def calculateRecipeScore (recipe : Recipe) (userPreferences : UserPreferences)
    (availableIngredients : Option (List String)) : Except JsError JsNum := do
  let score := JsNum.num 0
  let ingredientMatch := calculateIngredientMatch recipe.ingredients availableIngredients
  let score := JsNum.add score (JsNum.mul ingredientMatch (JsNum.num 40))
  let dietaryScore := checkDietaryCompliance recipe.dietaryTags
    userPreferences.dietaryRestrictions
  let score := JsNum.add score (JsNum.mul dietaryScore (JsNum.num 25))
  let nutritionScore ← calculateNutritionalAlignment recipe.nutrition
    userPreferences.nutritionalGoals
  let score := JsNum.add score (JsNum.mul nutritionScore (JsNum.num 20))
  let costScore := calculateCostEfficiency recipe.estimatedCost
    userPreferences.budgetConstraints
  let score := JsNum.add score (JsNum.mul costScore (JsNum.num 15))
  pure (JsNum.round score)

/-- Lines 122-129.  The filter callback calls `availableIngredients.some`
first, so with an absent list it raises a `TypeError` on the first ingredient;
on an empty ingredient list the callback never runs. -/
def findMissingIngredients (recipeIngredients : List Ingredient)
    (availableIngredients : Option (List String)) : Except JsError (List Ingredient) :=
  match recipeIngredients, availableIngredients with
  | [], _ => Except.ok []
  | _ :: _, none => Except.error JsError.typeError
  | ingredients, some available =>
    Except.ok (ingredients.filter fun ingredient =>
      !available.any (nameMatches ingredient) && !ingredient.isOptional)

/-- Lines 29-48.  The loop pushes one suggestion for each missing ingredient
with a substitute, in order. -/
def calculateRecipeWithSubstitutions (store : SubstitutionStore) (recipe : Recipe)
    (availableIngredients : Option (List String)) (dietaryRestrictions : List String := []) :
    Except JsError (List SubstitutionSuggestion) := do
  let missingIngredients ← findMissingIngredients recipe.ingredients availableIngredients
  missingIngredients.foldlM (fun substitutionSuggestions missingIngredient => do
    let substitutes ← findSubstitutions store missingIngredient.name dietaryRestrictions
    if substitutes.length > 0 then
      pure (substitutionSuggestions ++ [
        { originalIngredient := missingIngredient
          substitutes := substitutes.map fun sub =>
            { substitute := sub.substitute
              adjustedAmount := missingIngredient.amount * sub.substitute.ratio
              adjustedUnit := missingIngredient.unit } }])
    else pure substitutionSuggestions) []

/-! ## The route `POST /recipes` (`routes/optimizationRoutes.js`) -/

/-! The method `Array.prototype.sort(compareFn)` is taken as V8, the engine of
Node.js, performs it (`CountAndMakeRun` and `BinaryInsertionSort` of its
`array-sort.tq`): it finds the initial run of the array, reverses it when it is
strictly descending, and moves each later element to its place in the sorted
part by a binary search; a comparator result `NaN` counts as `0`.  That is the
engine's algorithm for an array of fewer than 64 elements; a longer array is
sorted run by run and the runs are merged, which gives the same array whenever
the comparator is consistent (here: numeric scores), the sort being stable in
both cases. -/

/-- The comparison the sort performs: `compareFn(x, y)` as a number, `NaN` read
as `0`. -/
def sortCompare {α : Type} (compareFn : α → α → JsNum) (x y : α) : ℚ :=
  match compareFn x y with
  | JsNum.num order => order
  | JsNum.nan => 0

/-- The loop that extends the initial run: the elements that continue the run
after `previousElement` (while `order >= 0` fails for a descending run, while
`order < 0` fails otherwise), and the elements left. -/
def extendRun {α : Type} (compareFn : α → α → JsNum) (isDescending : Bool)
    (previousElement : α) : List α → List α × List α
  | [] => ([], [])
  | currentElement :: rest =>
    let order := sortCompare compareFn currentElement previousElement
    if (if isDescending then decide (0 ≤ order) else decide (order < 0)) then
      ([], currentElement :: rest)
    else
      let extended := extendRun compareFn isDescending currentElement rest
      (currentElement :: extended.1, extended.2)

/-- The initial run of the array, reversed when it is descending (the second
element compares below the first), and the elements after it. -/
def countAndMakeRun {α : Type} (compareFn : α → α → JsNum) : List α → List α × List α
  | [] => ([], [])
  | [element] => ([element], [])
  | elementHigh :: elementLow :: rest =>
    let isDescending := decide (sortCompare compareFn elementLow elementHigh < 0)
    let extended := extendRun compareFn isDescending elementLow rest
    let run := elementHigh :: elementLow :: extended.1
    (if isDescending then run.reverse else run, extended.2)

/-- The binary search for the place of `pivot` in the sorted part: while
`left < right`, the middle element is compared and `right` or `left` moves.
The first argument bounds the number of iterations; `right - left` suffices. -/
def findInsertionPoint {α : Type} (compareFn : α → α → JsNum) (pivot : α) (sorted : List α) :
    ℕ → ℕ → ℕ → ℕ
  | 0, left, _ => left
  | steps + 1, left, right =>
    if left < right then
      let mid := left + (right - left) / 2
      match sorted.get? mid with
      | some element =>
        if sortCompare compareFn pivot element < 0 then
          findInsertionPoint compareFn pivot sorted steps left mid
        else
          findInsertionPoint compareFn pivot sorted steps (mid + 1) right
      | none => left
    else left

/-- One step of the binary insertion: `pivot`, the element after the sorted
part, moves to the place found for it. -/
def binaryInsert {α : Type} (compareFn : α → α → JsNum) (sorted : List α) (pivot : α) :
    List α :=
  let left := findInsertionPoint compareFn pivot sorted sorted.length 0 sorted.length
  sorted.take left ++ pivot :: sorted.drop left

/-- The method `Array.prototype.sort(compareFn)`: the initial run, then the
binary insertion of every element after it. -/
def jsSort {α : Type} (compareFn : α → α → JsNum) (l : List α) : List α :=
  let made := countAndMakeRun compareFn l
  made.2.foldl (binaryInsert compareFn) made.1

/-- The method `slice(0, stop)` for an integer `stop`: a negative `stop`
counts from the end. -/
def sliceFromStart {α : Type} (l : List α) (stop : ℤ) : List α :=
  if stop < 0 then l.take (l.length - stop.natAbs) else l.take stop.toNat

/-- The JSON body of `POST /recipes`; a field is absent (`undefined`, so that
its destructuring default applies) or well-typed. -/
structure OptimizeRequest where
  availableIngredients : Option (List String) := none
  dietaryRestrictions : Option (List String) := none
  nutritionalGoals : Option NutritionalGoals := none
  budgetConstraints : Option BudgetConstraints := none
  maxResults : Option ℤ := none
  deriving DecidableEq

/-- An element of `scoredRecipes`: the recipe and the three added fields. -/
structure ScoredRecipe where
  recipe : Recipe
  optimizationScore : JsNum
  missingIngredients : List Ingredient
  ingredientMatchPercentage : JsNum
  deriving DecidableEq

/-- Lines 15-27: the `userPreferences` object, the destructuring defaults
applied. -/
def requestPreferences (body : OptimizeRequest) : UserPreferences :=
  { dietaryRestrictions := some (body.dietaryRestrictions.getD [])
    nutritionalGoals := some (body.nutritionalGoals.getD {})
    budgetConstraints := some (body.budgetConstraints.getD {}) }

/-- Lines 31-41: the callback of `allRecipes.map`. -/
def scoreRecipe (userPreferences : UserPreferences) (availableIngredients : Option (List String))
    (recipe : Recipe) : Except JsError ScoredRecipe := do
  let score ← calculateRecipeScore recipe userPreferences availableIngredients
  let missingIngredients ← findMissingIngredients recipe.ingredients availableIngredients
  pure
    { recipe := recipe
      optimizationScore := score
      missingIngredients := missingIngredients
      ingredientMatchPercentage := JsNum.round (JsNum.mul
        (JsNum.div
          (JsNum.sub (JsNum.num recipe.ingredients.length)
            (JsNum.num missingIngredients.length))
          (JsNum.num recipe.ingredients.length))
        (JsNum.num 100)) }

/-- Lines 13-67, the handler of `POST /recipes` on the fetched `allRecipes`: the
`data` of the 200 response, or the exception its `catch` turns into a 500. -/
def postRecipes (allRecipes : List Recipe) (body : OptimizeRequest) :
    Except JsError (List ScoredRecipe) := do
  let availableIngredients := body.availableIngredients.getD []
  let maxResults := body.maxResults.getD 10
  let userPreferences := requestPreferences body
  let scoredRecipes ← allRecipes.mapM
    (scoreRecipe userPreferences (some availableIngredients))
  let optimizedRecipes := sliceFromStart
    (jsSort (fun a b => JsNum.sub b.optimizationScore a.optimizationScore) scoredRecipes)
    maxResults
  pure optimizedRecipes

/-! ## The routes `POST /match-ingredients` and `POST /substitutions` -/

/-- What a handler answers: the `data` of a 200 response, or the status 400,
404 or 500. -/
inductive Response (α : Type) where
  | ok (data : α)
  | badRequest
  | notFound
  | serverError
  deriving DecidableEq

/-- The JSON body of `POST /match-ingredients`; a field is absent or
well-typed. -/
structure MatchRequest where
  availableIngredients : Option (List String) := none
  minMatchPercentage : Option ℚ := none
  deriving DecidableEq

/-- An element of `matchedRecipes`: the recipe and the two added fields. -/
structure MatchedRecipe where
  recipe : Recipe
  ingredientMatchPercentage : JsNum
  missingIngredients : List Ingredient
  deriving DecidableEq

/-- Lines 83-92: the callback of `allRecipes.map` in `POST /match-ingredients`. -/
def matchRecipe (availableIngredients : Option (List String)) (recipe : Recipe) :
    Except JsError MatchedRecipe := do
  let missingIngredients ← findMissingIngredients recipe.ingredients availableIngredients
  let matchPercentage := JsNum.round (JsNum.mul
    (JsNum.div
      (JsNum.sub (JsNum.num recipe.ingredients.length) (JsNum.num missingIngredients.length))
      (JsNum.num recipe.ingredients.length))
    (JsNum.num 100))
  pure
    { recipe := recipe
      ingredientMatchPercentage := matchPercentage
      missingIngredients := missingIngredients }

/-- Lines 69-114, the handler of `POST /match-ingredients` on the fetched
`allRecipes`. -/
def postMatchIngredients (allRecipes : List Recipe) (body : MatchRequest) :
    Response (List MatchedRecipe) :=
  let minMatchPercentage := body.minMatchPercentage.getD 50
  match body.availableIngredients with
  | none => Response.badRequest
  | some [] => Response.badRequest
  | some (a :: as) =>
    match allRecipes.mapM (matchRecipe (some (a :: as))) with
    | Except.error _ => Response.serverError
    | Except.ok mapped =>
      Response.ok
        (jsSort (fun a b => JsNum.sub b.ingredientMatchPercentage a.ingredientMatchPercentage)
          (mapped.filter fun recipe =>
            JsNum.ge recipe.ingredientMatchPercentage (JsNum.num minMatchPercentage)))

/-- The JSON body of `POST /substitutions`; a field is absent or well-typed. -/
structure SubstitutionsRequest where
  ingredientName : Option String := none
  amount : Option ℚ := none
  unit : Option String := none
  dietaryRestrictions : Option (List String) := none
  deriving DecidableEq

/-- An element of `adjustedSubstitutes`: the fields of `sub`, with
`adjustedAmount` overwritten and three fields added. -/
structure RequestedSubstitute where
  substitute : Substitute
  adjustedAmount : ℚ
  adjustedUnit : String
  originalAmount : Option ℚ
  originalUnit : Option String
  deriving DecidableEq

/-- Lines 116-169, the handler of `POST /substitutions`.  `!ingredientName`
holds for an absent and for an empty name; `amount ? ... : ...` and
`unit || 'unit'` test truthiness, so the amount `0` and the unit `''` take the
second branch. -/
def postSubstitutions (store : SubstitutionStore) (body : SubstitutionsRequest) :
    Response (List RequestedSubstitute) :=
  let dietaryRestrictions := body.dietaryRestrictions.getD []
  match body.ingredientName with
  | none => Response.badRequest
  | some ingredientName =>
    if ingredientName = "" then Response.badRequest
    else
      match findSubstitutions store ingredientName dietaryRestrictions with
      | Except.error _ => Response.serverError
      | Except.ok substitutes =>
        if substitutes.length = 0 then Response.notFound
        else
          Response.ok (substitutes.map fun sub =>
            { substitute := sub.substitute
              adjustedAmount :=
                match body.amount with
                | some amount =>
                  if (JsNum.num amount).truthy then amount * sub.substitute.ratio
                  else sub.substitute.ratio
                | none => sub.substitute.ratio
              adjustedUnit :=
                match body.unit with
                | some unit => if unit = "" then "unit" else unit
                | none => "unit"
              originalAmount := body.amount
              originalUnit := body.unit })

/-! ## The nutritional alignment in the specification's words -/

/-- One term of the claimed nutritional alignment:
`max(0, 1 - |recipeValue - target| / target)`, the recipe value being read as
a number. -/
def alignmentTerm (recipeValue : Option ℚ) (target : ℚ) : JsNum :=
  JsNum.max (JsNum.num 0)
    (JsNum.sub (JsNum.num 1)
      (JsNum.div (JsNum.abs (JsNum.sub (toNumber recipeValue) (JsNum.num target)))
        (JsNum.num target)))

/-- The nutritional alignment as the specification words it: 0.5 without a
goals object; otherwise the average of `alignmentTerm` over those of
`targetCalories` and `targetProtein` that are present and non-zero, and 0.5
when there is none. -/
def nutritionalAlignmentSpec (nutrition : Nutrition) (goals : Option NutritionalGoals) :
    JsNum :=
  match goals with
  | none => JsNum.num (1 / 2)
  | some g =>
    let evaluated : List JsNum :=
      [(nutrition.calories, g.targetCalories), (nutrition.protein, g.targetProtein)].filterMap
        fun pair =>
          match pair.2 with
          | some target => if target = 0 then none else some (alignmentTerm pair.1 target)
          | none => none
    if evaluated.isEmpty then JsNum.num (1 / 2)
    else JsNum.div (evaluated.foldl JsNum.add (JsNum.num 0)) (JsNum.num evaluated.length)

/-! ## Example data (from `tests/unit/optimizationService.test.js`) -/

/-- The ingredient `flour`, 2 cups, required. -/
def flour : Ingredient := { name := "flour", amount := 2, unit := "cups" }

/-- The ingredient `milk`, 1 cup, required. -/
def milk : Ingredient := { name := "milk", amount := 1, unit := "cups" }

/-- The ingredient `eggs`, 2 pieces, required. -/
def eggs : Ingredient := { name := "eggs", amount := 2, unit := "pieces" }

/-- The ingredient `butter`, half a cup, required. -/
def butter : Ingredient := { name := "butter", amount := 1 / 2, unit := "cups" }

/-- The ingredient `vanilla`, 1 tsp, optional. -/
def vanilla : Ingredient :=
  { name := "vanilla", amount := 1, unit := "tsp", isOptional := true }

/-- The ingredient `Flour` of the case-insensitivity test. -/
def flourCapital : Ingredient := { name := "Flour", amount := 2, unit := "cups" }

/-- The ingredient `MILK` of the case-insensitivity test. -/
def milkUpper : Ingredient := { name := "MILK", amount := 1, unit := "cups" }

/-- The recipe of the test "should calculate correct optimization score with
all factors". -/
def pancakeRecipe : Recipe :=
  { title := "pancakes"
    dietaryTags := ["vegetarian"]
    ingredients := [flour, milk]
    nutrition := some
      { calories := some 400, protein := some 10, carbs := some 50, fat := some 15 }
    estimatedCost := some 3 }

/-- The recipe of the test "should penalize missing ingredients correctly". -/
def cakeRecipe : Recipe :=
  { title := "cake"
    dietaryTags := ["vegetarian"]
    ingredients := [flour, milk, eggs, butter]
    nutrition := some { calories := some 400, protein := some 10 }
    estimatedCost := some 3 }

/-- The preferences of those two tests. -/
def vegetarianPreferences : UserPreferences :=
  { dietaryRestrictions := some ["vegetarian"]
    nutritionalGoals := some { targetCalories := some 400, targetProtein := some 10 }
    budgetConstraints := some { maxCostPerServing := some 5 } }

/-- The recipe of the test "should handle dietary restriction violations". -/
def flourRecipe : Recipe :=
  { title := "flour only"
    dietaryTags := ["vegetarian"]
    ingredients := [flour]
    nutrition := some { calories := some 400 }
    estimatedCost := some 3 }

/-- A recipe that conforms to the schema and stores no nutrition. -/
def plainRecipe : Recipe :=
  { title := "plain", ingredients := [flour] }

/-- Preferences that only set a calorie target. -/
def caloriePreferences : UserPreferences :=
  { nutritionalGoals := some { targetCalories := some 400 } }

/-- A recipe without ingredients, which the schema admits. -/
def bareRecipe : Recipe :=
  { title := "bare" }

/-- The ingredient `milk`, 1.5 cups, of the integration test recipes. -/
def milkCupAndHalf : Ingredient :=
  { name := "milk", amount := 3 / 2, unit := "cups", category := "dairy" }

/-- The substitute `almond milk` of the scenario: ratio 1, vegan. -/
def almondMilk : Substitute :=
  { ingredient := "almond milk", ratio := 1, dietaryBenefits := ["vegan"] }

/-- A second substitute for milk, with no dietary benefit. -/
def goatMilk : Substitute :=
  { ingredient := "goat milk", ratio := 1 }

/-- A substitution table with the single entry `milk`. -/
def milkTable : List SubstitutionEntry :=
  [{ originalIngredient := "milk", substitutes := [almondMilk, goatMilk] }]

/-- The recipe `Pancakes` of the integration tests: three required ingredients,
300 calories. -/
def threeIngredientRecipe : Recipe :=
  { title := "Pancakes"
    dietaryTags := ["vegetarian"]
    ingredients := [flour, milkCupAndHalf, eggs]
    nutrition := some { calories := some 300, protein := some 8, carbs := some 45, fat := some 10 }
    estimatedCost := some (14 / 5) }

/-- A recipe whose only ingredient is optional. -/
def garnishRecipe : Recipe :=
  { title := "garnish", ingredients := [vanilla] }

/-- The recipe of the matching scenario: flour, milk and optional vanilla. -/
def vanillaRecipe : Recipe :=
  { title := "vanilla batter", ingredients := [flour, milk, vanilla] }

/-- A recipe that needs flour and 1.5 cups of milk. -/
def batterRecipe : Recipe :=
  { title := "batter", ingredients := [flour, milkCupAndHalf] }

/-- A recipe that stores protein and no calories, which the schema admits. -/
def proteinRecipe : Recipe :=
  { title := "protein only"
    ingredients := [flour]
    nutrition := some { protein := some 8 }
    estimatedCost := some 3 }

/-- A recipe that needs milk only. -/
def milkRecipe : Recipe :=
  { title := "milk only", ingredients := [milk] }

/-- A second recipe with the four ingredients of `cake`. -/
def secondCakeRecipe : Recipe :=
  { title := "second cake", ingredients := [flour, milk, eggs, butter] }

/-! ## The ingredient matcher -/

theorem includes_iff (s t : String) : includes s t = true ↔ t.data <:+: s.data := by
  simp [includes]

theorem nameMatches_iff (i : Ingredient) (e : String) :
    nameMatches i e = true ↔
      ((toLowerCase i.name).data <:+: (toLowerCase e).data ∨
        (toLowerCase e).data <:+: (toLowerCase i.name).data) := by
  simp [nameMatches, includes_iff]

theorem any_nameMatches_iff (i : Ingredient) (available : List String) :
    available.any (nameMatches i) = true ↔
      ∃ e ∈ available, (toLowerCase i.name).data <:+: (toLowerCase e).data ∨
        (toLowerCase e).data <:+: (toLowerCase i.name).data := by
  simp [List.any_eq_true, nameMatches_iff]

theorem findMissingIngredients_some (ingredients : List Ingredient)
    (available : List String) :
    findMissingIngredients ingredients (some available) =
      Except.ok (ingredients.filter fun ingredient =>
        !available.any (nameMatches ingredient) && !ingredient.isOptional) := by
  cases ingredients <;> simp [findMissingIngredients]

theorem mem_missing_iff (ingredients : List Ingredient) (available : List String)
    (i : Ingredient) :
    i ∈ (ingredients.filter fun ingredient =>
        !available.any (nameMatches ingredient) && !ingredient.isOptional) ↔
      i ∈ ingredients ∧ available.any (nameMatches i) = false ∧ i.isOptional = false := by
  simp [List.mem_filter]

/-- C1: with a list of available names, `findMissingIngredients` returns the
filter of the input (so in input order) by "not optional, and no available
entry `e` has `lower(e)` containing `lower(name)` or `lower(name)` containing
`lower(e)`". -/
theorem findMissingIngredients_eq_filter (ingredients : List Ingredient)
    (available : List String) :
    findMissingIngredients ingredients (some available) =
      Except.ok (ingredients.filter fun i =>
        decide (i.isOptional = false ∧
          ¬ ∃ e ∈ available, (toLowerCase i.name).data <:+: (toLowerCase e).data ∨
            (toLowerCase e).data <:+: (toLowerCase i.name).data)) := by
  rw [findMissingIngredients_some]
  congr 1
  apply List.filter_congr
  intro i _
  rw [Bool.eq_iff_iff]
  simp only [Bool.and_eq_true, Bool.not_eq_true', decide_eq_true_eq, ← any_nameMatches_iff]
  constructor
  · rintro ⟨h1, h2⟩
    exact ⟨h2, by simp [h1]⟩
  · rintro ⟨h1, h2⟩
    exact ⟨by simpa using h2, h1⟩

/-- C4: with any list of available names, the empty one included,
`findMissingIngredients` returns a list in which no ingredient is optional, so
no ingredient flagged `isOptional` appears in it. -/
theorem findMissingIngredients_no_optional (ingredients : List Ingredient)
    (available : List String) :
    ∃ missing, findMissingIngredients ingredients (some available) = Except.ok missing ∧
      (∀ i ∈ missing, i.isOptional = false) ∧
      ∀ i : Ingredient, i.isOptional = true → i ∉ missing := by
  refine ⟨_, findMissingIngredients_some ingredients available, ?_, ?_⟩
  · intro i hi
    exact ((mem_missing_iff ingredients available i).1 hi).2.2
  · intro i hopt hi
    have := ((mem_missing_iff ingredients available i).1 hi).2.2
    simp [hopt] at this

/-- Witness for C4: the optional `vanilla` is not reported missing when only
`flour` is available. -/
theorem findMissingIngredients_no_optional_witness :
    ∃ missing, findMissingIngredients [flour, vanilla] (some ["flour"]) = Except.ok missing ∧
      vanilla ∉ missing := by
  obtain ⟨missing, h, _, h2⟩ := findMissingIngredients_no_optional [flour, vanilla] ["flour"]
  exact ⟨missing, h, h2 vanilla (by decide)⟩

/-- C5: with an absent available list the call raises a `TypeError` as soon as
there is an ingredient to test (here the single required `flour`), where the
empty list gives `[flour]`; only the empty ingredient list returns. -/
theorem findMissingIngredients_absent_list_throws :
    findMissingIngredients [flour] none = Except.error JsError.typeError ∧
      findMissingIngredients [flour] (some []) = Except.ok [flour] ∧
      findMissingIngredients [] none = Except.ok [] := by
  decide

/-- C6: an ingredient whose lower-cased name is contained in, or contains, the
lower-cased form of some available entry is not in the result of
`findMissingIngredients`; in particular one whose name equals an available
entry up to letter case is not. -/
theorem findMissingIngredients_excludes_matched (ingredients : List Ingredient)
    (available : List String) :
    ∃ missing, findMissingIngredients ingredients (some available) = Except.ok missing ∧
      (∀ i : Ingredient,
        (∃ e ∈ available, (toLowerCase i.name).data <:+: (toLowerCase e).data ∨
          (toLowerCase e).data <:+: (toLowerCase i.name).data) → i ∉ missing) ∧
      ∀ i : Ingredient, (∃ e ∈ available, toLowerCase i.name = toLowerCase e) →
        i ∉ missing := by
  have key : ∀ i : Ingredient,
      (∃ e ∈ available, (toLowerCase i.name).data <:+: (toLowerCase e).data ∨
        (toLowerCase e).data <:+: (toLowerCase i.name).data) →
      i ∉ ingredients.filter fun ingredient =>
        !available.any (nameMatches ingredient) && !ingredient.isOptional := by
    intro i hmatch hi
    have hno := ((mem_missing_iff ingredients available i).1 hi).2.1
    rw [(any_nameMatches_iff i available).2 hmatch] at hno
    exact Bool.noConfusion hno
  refine ⟨_, findMissingIngredients_some ingredients available, key, ?_⟩
  rintro i ⟨e, he, heq⟩
  exact key i ⟨e, he, Or.inl (by rw [heq])⟩

/-- Witness for C6: `Flour` and `MILK` are matched by `flour` and `milk`. -/
theorem findMissingIngredients_excludes_matched_witness :
    ∃ missing,
      findMissingIngredients [flourCapital, milkUpper] (some ["flour", "milk"]) =
        Except.ok missing ∧ flourCapital ∉ missing ∧ milkUpper ∉ missing := by
  obtain ⟨missing, h, _, h2⟩ :=
    findMissingIngredients_excludes_matched [flourCapital, milkUpper] ["flour", "milk"]
  exact ⟨missing, h, h2 flourCapital ⟨"flour", by decide, by decide⟩,
    h2 milkUpper ⟨"milk", by decide, by decide⟩⟩

/-! ## The sub-scores -/

theorem round_num (a : ℚ) : JsNum.round (JsNum.num a) = JsNum.num ((⌊a + 1 / 2⌋ : ℤ) : ℚ) := rfl

theorem calculateRecipeScore_of_subscores (recipe : Recipe) (userPreferences : UserPreferences)
    (availableIngredients : Option (List String)) (m d n c : ℚ)
    (hm : calculateIngredientMatch recipe.ingredients availableIngredients = JsNum.num m)
    (hd : checkDietaryCompliance recipe.dietaryTags userPreferences.dietaryRestrictions =
      JsNum.num d)
    (hn : calculateNutritionalAlignment recipe.nutrition userPreferences.nutritionalGoals =
      Except.ok (JsNum.num n))
    (hc : calculateCostEfficiency recipe.estimatedCost userPreferences.budgetConstraints =
      JsNum.num c) :
    calculateRecipeScore recipe userPreferences availableIngredients =
      Except.ok (JsNum.num ((⌊m * 40 + d * 25 + n * 20 + c * 15 + 1 / 2⌋ : ℤ) : ℚ)) := by
  simp only [calculateRecipeScore, hm, hd, hn, hc, JsNum.add, JsNum.mul, zero_add, bind,
    Except.bind, pure, Except.pure, round_num]

theorem calculateIngredientMatch_range (ingredients : List Ingredient)
    (available : Option (List String)) (hne : ingredients ≠ []) :
    ∃ q : ℚ, calculateIngredientMatch ingredients available = JsNum.num q ∧ 0 ≤ q ∧ q ≤ 1 := by
  have hlen : (ingredients.length : ℚ) ≠ 0 := by
    simpa using hne
  have hpos : (0 : ℚ) < ingredients.length := by
    have : 0 < ingredients.length := List.length_pos.2 hne
    exact_mod_cast this
  match available with
  | none => exact ⟨0, rfl, le_refl _, zero_le_one⟩
  | some [] => exact ⟨0, rfl, le_refl _, zero_le_one⟩
  | some (a :: as) =>
    refine ⟨_, by simp only [calculateIngredientMatch, JsNum.div, Nat.cast_eq_zero]; rw [if_neg (by simpa using hne)], ?_, ?_⟩
    · positivity
    · rw [div_le_one hpos]
      exact_mod_cast List.length_filter_le _ _

theorem checkDietaryCompliance_cases (recipeTags : List String)
    (userRestrictions : Option (List String)) :
    checkDietaryCompliance recipeTags userRestrictions = JsNum.num 1 ∨
      checkDietaryCompliance recipeTags userRestrictions = JsNum.num 0 := by
  match userRestrictions with
  | none => exact Or.inl rfl
  | some [] => exact Or.inl rfl
  | some (r :: rs) =>
    simp only [checkDietaryCompliance]
    split
    · exact Or.inl rfl
    · exact Or.inr rfl

theorem factor_range (v t : ℚ) (ht : 0 < t) :
    0 ≤ Max.max 0 (1 - |v - t| / t) ∧ Max.max 0 (1 - |v - t| / t) ≤ 1 := by
  refine ⟨le_max_left _ _, max_le zero_le_one ?_⟩
  have : 0 ≤ |v - t| / t := div_nonneg (abs_nonneg _) ht.le
  linarith

theorem truthy_nan : JsNum.nan.truthy = false := rfl

theorem truthy_num (t : ℚ) (ht : t ≠ 0) : (JsNum.num t).truthy = true := by
  simp [JsNum.truthy, ht]

theorem factor_num (v t : ℚ) (ht : t ≠ 0) :
    JsNum.max (JsNum.num 0)
        (JsNum.sub (JsNum.num 1)
          (JsNum.div (JsNum.abs (JsNum.sub (JsNum.num v) (JsNum.num t))) (JsNum.num t))) =
      JsNum.num (Max.max 0 (1 - |v - t| / t)) := by
  simp [JsNum.max, JsNum.sub, JsNum.div, JsNum.abs, ht]

theorem calculateNutritionalAlignment_range (recipeNutrition : Option Nutrition)
    (goals : Option NutritionalGoals)
    (hcal : ∀ g t, goals = some g → g.targetCalories = some t →
      0 < t ∧ ∃ nutrition calories, recipeNutrition = some nutrition ∧
        nutrition.calories = some calories)
    (hprot : ∀ g t, goals = some g → g.targetProtein = some t →
      0 < t ∧ ∃ nutrition protein, recipeNutrition = some nutrition ∧
        nutrition.protein = some protein) :
    ∃ q : ℚ, calculateNutritionalAlignment recipeNutrition goals = Except.ok (JsNum.num q) ∧
      0 ≤ q ∧ q ≤ 1 := by
  match goals with
  | none => exact ⟨1 / 2, rfl, by norm_num, by norm_num⟩
  | some g =>
    rcases hgc : g.targetCalories with _ | tc <;> rcases hgp : g.targetProtein with _ | tp
    · refine ⟨1 / 2, ?_, by norm_num, by norm_num⟩
      simp only [calculateNutritionalAlignment, hgc, hgp, toNumber, truthy_nan]
      rfl
    · obtain ⟨htp, nutrition, protein, rfl, hprotein⟩ := hprot g tp rfl hgp
      have hr := factor_range protein tp htp
      refine ⟨Max.max 0 (1 - |protein - tp| / tp), ?_, hr⟩
      simp only [calculateNutritionalAlignment, hgc, hgp, toNumber, truthy_num tp htp.ne',
        nutritionField, hprotein, factor_num protein tp htp.ne', truthy_nan, bind, Except.bind,
        pure, Except.pure, JsNum.add, zero_add]
      simp [JsNum.div]
    · obtain ⟨htc, nutrition, calories, rfl, hcalories⟩ := hcal g tc rfl hgc
      have hr := factor_range calories tc htc
      refine ⟨Max.max 0 (1 - |calories - tc| / tc), ?_, hr⟩
      simp only [calculateNutritionalAlignment, hgc, hgp, toNumber, truthy_num tc htc.ne',
        nutritionField, hcalories, factor_num calories tc htc.ne', truthy_nan, bind, Except.bind,
        pure, Except.pure, JsNum.add, zero_add]
      simp [JsNum.div]
    · obtain ⟨htc, nutrition, calories, rfl, hcalories⟩ := hcal g tc rfl hgc
      obtain ⟨htp, nutrition', protein, hsame, hprotein⟩ := hprot g tp rfl hgp
      cases hsame
      have hr1 := factor_range calories tc htc
      have hr2 := factor_range protein tp htp
      refine ⟨(Max.max 0 (1 - |calories - tc| / tc) + Max.max 0 (1 - |protein - tp| / tp)) / 2,
        ?_, by linarith [hr1.1, hr2.1], by linarith [hr1.2, hr2.2]⟩
      simp only [calculateNutritionalAlignment, hgc, hgp, toNumber, truthy_num tc htc.ne',
        truthy_num tp htp.ne', nutritionField, hcalories, hprotein,
        factor_num calories tc htc.ne', factor_num protein tp htp.ne', bind, Except.bind, pure,
        Except.pure, JsNum.add, zero_add]
      norm_num [JsNum.div]

theorem calculateCostEfficiency_range (recipeCost : Option ℚ)
    (budget : Option BudgetConstraints)
    (hcost : ∀ c, recipeCost = some c → 0 ≤ c)
    (hbudget : ∀ b m, budget = some b → b.maxCostPerServing = some m → 0 < m) :
    ∃ q : ℚ, calculateCostEfficiency recipeCost budget = JsNum.num q ∧ 0 ≤ q ∧ q ≤ 1 := by
  match budget with
  | none => exact ⟨1 / 2, rfl, by norm_num, by norm_num⟩
  | some b =>
    rcases hb : b.maxCostPerServing with _ | m
    · exact ⟨1 / 2, by simp [calculateCostEfficiency, hb, toNumber, JsNum.truthy],
        by norm_num, by norm_num⟩
    · have hm := hbudget b m rfl hb
      rcases recipeCost with _ | c
      · exact ⟨0, by simp [calculateCostEfficiency, hb, toNumber, JsNum.truthy, hm.ne', JsNum.le],
          le_refl _, zero_le_one⟩
      · have hc := hcost c rfl
        by_cases hle : c ≤ m
        · refine ⟨1 - c / m, by simp [calculateCostEfficiency, hb, toNumber, JsNum.truthy,
            hm.ne', JsNum.le, hle, JsNum.sub, JsNum.div], ?_, ?_⟩
          · have : c / m ≤ 1 := (div_le_one hm).2 hle
            linarith
          · have : 0 ≤ c / m := div_nonneg hc hm.le
            linarith
        · exact ⟨0, by simp [calculateCostEfficiency, hb, toNumber, JsNum.truthy, hm.ne',
            JsNum.le, hle], le_refl _, zero_le_one⟩

/-! ## The recipe scorer -/

theorem round_half_up (x : ℚ) :
    ∃ s : ℤ, JsNum.round (JsNum.num x) = JsNum.num s ∧ (s : ℚ) - 1 / 2 ≤ x ∧ x < s + 1 / 2 := by
  refine ⟨⌊x + 1 / 2⌋, rfl, ?_, ?_⟩
  · have := Int.floor_le (x + 1 / 2)
    linarith
  · have := Int.lt_floor_add_one (x + 1 / 2)
    linarith

theorem checkDietaryCompliance_some (recipeTags restrictions : List String) :
    checkDietaryCompliance recipeTags (some restrictions) =
      if ∀ r ∈ restrictions, r ∈ recipeTags then JsNum.num 1 else JsNum.num 0 := by
  cases restrictions with
  | nil => simp [checkDietaryCompliance]
  | cons r rs => simp [checkDietaryCompliance]

/-- C2: `calculateRecipeScore` is `Math.round` of
`match * 40 + dietary * 25 + nutrition * 20 + cost * 15`, the sub-scores being
`calculateIngredientMatch`, `checkDietaryCompliance`,
`calculateNutritionalAlignment` and `calculateCostEfficiency` on the recipe's
ingredients, tags, nutrition and cost (it raises exactly when the nutrition
sub-score does); and `Math.round` of a number `x` is the integer `s` with
`s - 1/2 ≤ x < s + 1/2` (nearest, a tie going up). -/
theorem calculateRecipeScore_eq_round (recipe : Recipe) (userPreferences : UserPreferences)
    (availableIngredients : Option (List String)) :
    calculateRecipeScore recipe userPreferences availableIngredients =
        (calculateNutritionalAlignment recipe.nutrition
          userPreferences.nutritionalGoals).map (fun nutritionScore =>
            JsNum.round
              (JsNum.add
                (JsNum.add
                  (JsNum.add
                    (JsNum.mul
                      (calculateIngredientMatch recipe.ingredients availableIngredients)
                      (JsNum.num 40))
                    (JsNum.mul
                      (checkDietaryCompliance recipe.dietaryTags
                        userPreferences.dietaryRestrictions) (JsNum.num 25)))
                  (JsNum.mul nutritionScore (JsNum.num 20)))
                (JsNum.mul
                  (calculateCostEfficiency recipe.estimatedCost
                    userPreferences.budgetConstraints) (JsNum.num 15)))) ∧
      ∀ x : ℚ, ∃ s : ℤ, JsNum.round (JsNum.num x) = JsNum.num s ∧
        (s : ℚ) - 1 / 2 ≤ x ∧ x < s + 1 / 2 := by
  refine ⟨?_, round_half_up⟩
  have h0 : ∀ a : JsNum, JsNum.add (JsNum.num 0) (JsNum.mul a (JsNum.num 40)) =
      JsNum.mul a (JsNum.num 40) := by
    intro a
    cases a <;> simp [JsNum.add, JsNum.mul]
  cases hn : calculateNutritionalAlignment recipe.nutrition userPreferences.nutritionalGoals with
  | error e => simp only [calculateRecipeScore, hn, bind, Except.bind, Except.map]
  | ok n => simp only [calculateRecipeScore, hn, bind, Except.bind, pure, Except.pure, h0,
      Except.map]

/-- The score of the fully matching test recipe, through C2:
`round(1 * 40 + 1 * 25 + 1 * 20 + (2/5) * 15) = 91`. -/
theorem calculateRecipeScore_eq_round_witness :
    calculateRecipeScore pancakeRecipe vegetarianPreferences (some ["flour", "milk"]) =
      Except.ok (JsNum.num 91) :=
  (calculateRecipeScore_eq_round pancakeRecipe vegetarianPreferences
    (some ["flour", "milk"])).1.trans (by decide!)

/-- C3, as stated, fails: the recipe `protein only` has one ingredient, stores
the protein 8 and the cost 3 and no calories (the schema requires none of the
nutrition values), and the preferences supply the positive calorie target 400;
the calorie term is then `NaN` and so is the score, which is no integer. -/
theorem calculateRecipeScore_range_counterexample :
    calculateRecipeScore proteinRecipe caloriePreferences (some ["flour"]) =
        Except.ok JsNum.nan ∧
      ¬ ∃ s : ℤ, calculateRecipeScore proteinRecipe caloriePreferences (some ["flour"]) =
        Except.ok (JsNum.num s) := by
  have h : calculateRecipeScore proteinRecipe caloriePreferences (some ["flour"]) =
      Except.ok JsNum.nan := by decide!
  refine ⟨h, ?_⟩
  rintro ⟨s, hs⟩
  rw [h] at hs
  cases hs

/-- C3, amended: for a recipe with at least one ingredient and a cost that, when
stored, is non-negative, and preferences whose supplied calorie and protein
targets and cost limit are positive, such that the recipe stores a non-negative
calories value when a calorie target is supplied and a non-negative protein
value when a protein target is supplied, `calculateRecipeScore` returns an
integer between 0 and 100. -/
theorem calculateRecipeScore_range (recipe : Recipe) (userPreferences : UserPreferences)
    (availableIngredients : Option (List String))
    (hingredients : recipe.ingredients ≠ [])
    (hcalories : ∀ goals target, userPreferences.nutritionalGoals = some goals →
      goals.targetCalories = some target →
      0 < target ∧ ∃ nutrition calories, recipe.nutrition = some nutrition ∧
        nutrition.calories = some calories ∧ 0 ≤ calories)
    (hprotein : ∀ goals target, userPreferences.nutritionalGoals = some goals →
      goals.targetProtein = some target →
      0 < target ∧ ∃ nutrition protein, recipe.nutrition = some nutrition ∧
        nutrition.protein = some protein ∧ 0 ≤ protein)
    (hcost : ∀ cost, recipe.estimatedCost = some cost → 0 ≤ cost)
    (hbudget : ∀ b m, userPreferences.budgetConstraints = some b →
      b.maxCostPerServing = some m → 0 < m) :
    ∃ s : ℤ, calculateRecipeScore recipe userPreferences availableIngredients =
      Except.ok (JsNum.num s) ∧ 0 ≤ s ∧ s ≤ 100 := by
  obtain ⟨m, hm, hm0, hm1⟩ :=
    calculateIngredientMatch_range recipe.ingredients availableIngredients hingredients
  obtain ⟨n, hn, hn0, hn1⟩ := calculateNutritionalAlignment_range recipe.nutrition
    userPreferences.nutritionalGoals
    (fun g t hg ht => by
      obtain ⟨h0, nutrition, calories, h1, h2, _⟩ := hcalories g t hg ht
      exact ⟨h0, nutrition, calories, h1, h2⟩)
    (fun g t hg ht => by
      obtain ⟨h0, nutrition, protein, h1, h2, _⟩ := hprotein g t hg ht
      exact ⟨h0, nutrition, protein, h1, h2⟩)
  obtain ⟨c, hc, hc0, hc1⟩ := calculateCostEfficiency_range recipe.estimatedCost
    userPreferences.budgetConstraints hcost hbudget
  have hd := checkDietaryCompliance_cases recipe.dietaryTags userPreferences.dietaryRestrictions
  have key : ∀ d : ℚ, 0 ≤ d → d ≤ 1 →
      checkDietaryCompliance recipe.dietaryTags userPreferences.dietaryRestrictions =
        JsNum.num d →
      ∃ s : ℤ, calculateRecipeScore recipe userPreferences availableIngredients =
        Except.ok (JsNum.num s) ∧ 0 ≤ s ∧ s ≤ 100 := by
    intro d hd0 hd1 hd
    refine ⟨_, calculateRecipeScore_of_subscores recipe userPreferences availableIngredients
      m d n c hm hd hn hc, ?_, ?_⟩
    · apply Int.floor_nonneg.2
      linarith
    · have : ⌊m * 40 + d * 25 + n * 20 + c * 15 + 1 / 2⌋ < 101 := by
        apply Int.floor_lt.2
        push_cast
        linarith
      omega
  rcases hd with hd | hd
  · exact key 1 zero_le_one (le_refl _) hd
  · exact key 0 (le_refl _) zero_le_one hd

/-- Witness for C3 as amended: the fully matching test recipe stores calories
and protein and scores 91. -/
theorem calculateRecipeScore_range_witness :
    ∃ s : ℤ, calculateRecipeScore pancakeRecipe vegetarianPreferences
      (some ["flour", "milk"]) = Except.ok (JsNum.num s) ∧ 0 ≤ s ∧ s ≤ 100 :=
  calculateRecipeScore_range pancakeRecipe vegetarianPreferences (some ["flour", "milk"])
    (by decide)
    (by
      intro g t hg ht
      cases hg
      cases ht
      exact ⟨by norm_num, _, 400, rfl, rfl, by norm_num⟩)
    (by
      intro g t hg ht
      cases hg
      cases ht
      exact ⟨by norm_num, _, 10, rfl, rfl, by norm_num⟩)
    (by
      intro cost hcost
      cases hcost
      norm_num)
    (by
      intro b m hb hm
      cases hb
      cases hm
      norm_num)

/-- C7: a recipe that stores no nutrition, scored against preferences with a
calorie target, raises a `TypeError` (the read `recipeNutrition.calories`);
without the target the same recipe scores 83. -/
theorem calculateRecipeScore_absent_nutrition_throws :
    calculateRecipeScore plainRecipe caloriePreferences (some ["flour"]) =
        Except.error JsError.typeError ∧
      calculateRecipeScore plainRecipe {} (some ["flour"]) = Except.ok (JsNum.num 83) := by
  constructor
  · decide
  · decide!

/-- C8: two scorings whose dietary, nutrition and cost sub-scores agree and
whose ingredient-match ratios are `m₁ ≤ m₂` give integer scores `s₁ ≤ s₂`. -/
theorem calculateRecipeScore_mono_match (recipe₁ recipe₂ : Recipe)
    (preferences₁ preferences₂ : UserPreferences) (available₁ available₂ : Option (List String))
    (m₁ m₂ d n c : ℚ)
    (hm₁ : calculateIngredientMatch recipe₁.ingredients available₁ = JsNum.num m₁)
    (hm₂ : calculateIngredientMatch recipe₂.ingredients available₂ = JsNum.num m₂)
    (hd₁ : checkDietaryCompliance recipe₁.dietaryTags preferences₁.dietaryRestrictions =
      JsNum.num d)
    (hd₂ : checkDietaryCompliance recipe₂.dietaryTags preferences₂.dietaryRestrictions =
      JsNum.num d)
    (hn₁ : calculateNutritionalAlignment recipe₁.nutrition preferences₁.nutritionalGoals =
      Except.ok (JsNum.num n))
    (hn₂ : calculateNutritionalAlignment recipe₂.nutrition preferences₂.nutritionalGoals =
      Except.ok (JsNum.num n))
    (hc₁ : calculateCostEfficiency recipe₁.estimatedCost preferences₁.budgetConstraints =
      JsNum.num c)
    (hc₂ : calculateCostEfficiency recipe₂.estimatedCost preferences₂.budgetConstraints =
      JsNum.num c)
    (hle : m₁ ≤ m₂) :
    ∃ s₁ s₂ : ℤ,
      calculateRecipeScore recipe₁ preferences₁ available₁ = Except.ok (JsNum.num s₁) ∧
      calculateRecipeScore recipe₂ preferences₂ available₂ = Except.ok (JsNum.num s₂) ∧
      s₁ ≤ s₂ := by
  refine ⟨_, _,
    calculateRecipeScore_of_subscores recipe₁ preferences₁ available₁ m₁ d n c hm₁ hd₁ hn₁ hc₁,
    calculateRecipeScore_of_subscores recipe₂ preferences₂ available₂ m₂ d n c hm₂ hd₂ hn₂ hc₂,
    ?_⟩
  apply Int.floor_mono
  linarith

/-- Witness for C8: the four-ingredient test recipe with two ingredients
available (ratio 1/2) and with all four (ratio 1). -/
theorem calculateRecipeScore_mono_match_witness :
    ∃ s₁ s₂ : ℤ,
      calculateRecipeScore cakeRecipe vegetarianPreferences (some ["flour", "milk"]) =
        Except.ok (JsNum.num s₁) ∧
      calculateRecipeScore cakeRecipe vegetarianPreferences
        (some ["flour", "milk", "eggs", "butter"]) = Except.ok (JsNum.num s₂) ∧
      s₁ ≤ s₂ :=
  calculateRecipeScore_mono_match cakeRecipe cakeRecipe vegetarianPreferences
    vegetarianPreferences (some ["flour", "milk"]) (some ["flour", "milk", "eggs", "butter"])
    (1 / 2) 1 1 1 (2 / 5) (by decide!) (by decide!) (by decide) (by decide) (by decide!)
    (by decide!) (by decide!) (by decide!) (by norm_num)

/-! The dietary penalty (C9).  With the other sub-scores fixed, the sum before
`Math.round` is 25 higher under a satisfied restriction list than under a
violated one.  The rounded scores need not be 25 apart in the engine's
arithmetic: for the cost 4.5 and the limit 5 the cost term is the double
`1.4999999999999996`, the two sums are the doubles `26.5` and
`1.4999999999999996`, and they round to 27 and 1.  The exact numbers of this
embedding do not show that, so no theorem about the difference is stated. -/

/-- C10: `calculateIngredientMatch` returns 0 when the available list is absent
or empty; otherwise it returns `matchedCount / totalCount` (JavaScript
division), `totalCount` being the number of all ingredients and an ingredient
counting as matched iff it is optional or its lower-cased name is contained in,
or contains, the lower-cased form of some available entry; for a recipe with
an ingredient this is the rational `matchedCount / totalCount`. -/
theorem calculateIngredientMatch_spec (ingredients : List Ingredient) :
    calculateIngredientMatch ingredients none = JsNum.num 0 ∧
      calculateIngredientMatch ingredients (some []) = JsNum.num 0 ∧
      ∀ available : List String, available ≠ [] →
        calculateIngredientMatch ingredients (some available) =
            JsNum.div
              (JsNum.num (ingredients.countP fun i =>
                decide (i.isOptional = true ∨
                  ∃ e ∈ available, (toLowerCase i.name).data <:+: (toLowerCase e).data ∨
                    (toLowerCase e).data <:+: (toLowerCase i.name).data) : ℕ))
              (JsNum.num (ingredients.length : ℕ)) ∧
          (ingredients ≠ [] →
            calculateIngredientMatch ingredients (some available) =
              JsNum.num ((ingredients.countP fun i =>
                decide (i.isOptional = true ∨
                  ∃ e ∈ available, (toLowerCase i.name).data <:+: (toLowerCase e).data ∨
                    (toLowerCase e).data <:+: (toLowerCase i.name).data) : ℕ) /
                (ingredients.length : ℕ))) := by
  refine ⟨rfl, rfl, ?_⟩
  intro available hne
  have hcount : (ingredients.filter fun ingredient =>
      available.any (nameMatches ingredient) || ingredient.isOptional).length =
      ingredients.countP fun i =>
        decide (i.isOptional = true ∨
          ∃ e ∈ available, (toLowerCase i.name).data <:+: (toLowerCase e).data ∨
            (toLowerCase e).data <:+: (toLowerCase i.name).data) := by
    rw [List.countP_eq_length_filter]
    congr 1
    apply List.filter_congr
    intro i _
    rw [Bool.eq_iff_iff]
    simp only [Bool.or_eq_true, decide_eq_true_eq, any_nameMatches_iff]
    exact Or.comm
  have hdiv : calculateIngredientMatch ingredients (some available) =
      JsNum.div
        (JsNum.num ((ingredients.filter fun ingredient =>
          available.any (nameMatches ingredient) || ingredient.isOptional).length : ℕ))
        (JsNum.num (ingredients.length : ℕ)) := by
    cases available with
    | nil => exact absurd rfl hne
    | cons a as => rfl
  rw [hdiv, hcount]
  refine ⟨rfl, ?_⟩
  intro hi
  have hlen : (ingredients.length : ℚ) ≠ 0 := by
    simpa using hi
  simp only [JsNum.div, if_neg hlen]

/-- Witness for C10: `[flour, milk, vanilla (optional)]` with `['flour']`
available gives 2/3. -/
theorem calculateIngredientMatch_spec_witness :
    calculateIngredientMatch [flour, milk, vanilla] (some ["flour"]) = JsNum.num (2 / 3) :=
  (((calculateIngredientMatch_spec [flour, milk, vanilla]).2.2 ["flour"] (by decide)).2
    (by decide)).trans (by decide!)

theorem add_zero_num (a : JsNum) : JsNum.add (JsNum.num 0) a = a := by
  cases a <;> simp [JsNum.add]

theorem div_one_num (a : JsNum) : JsNum.div a (JsNum.num 1) = a := by
  cases a <;> simp [JsNum.div]

theorem truthy_toNumber (target : Option ℚ) :
    (toNumber target).truthy = true ↔ ∃ t, target = some t ∧ t ≠ 0 := by
  cases target <;> simp [toNumber, JsNum.truthy]

theorem calculateNutritionalAlignment_eq_spec (nutrition : Nutrition)
    (goals : Option NutritionalGoals) :
    calculateNutritionalAlignment (some nutrition) goals =
      Except.ok (nutritionalAlignmentSpec nutrition goals) := by
  match goals with
  | none => rfl
  | some g =>
    rcases hgc : g.targetCalories with _ | tc <;> rcases hgp : g.targetProtein with _ | tp
    · simp [calculateNutritionalAlignment, nutritionalAlignmentSpec, hgc, hgp, toNumber,
        truthy_nan, pure, Except.pure, bind, Except.bind]
    · by_cases htp : tp = 0
      · simp [calculateNutritionalAlignment, nutritionalAlignmentSpec, hgc, hgp, toNumber,
          truthy_nan, pure, Except.pure, bind, Except.bind, htp, JsNum.truthy]
      · simp [calculateNutritionalAlignment, nutritionalAlignmentSpec, hgc, hgp, toNumber,
          truthy_nan, pure, Except.pure, bind, Except.bind, htp, truthy_num tp htp,
          nutritionField, alignmentTerm, add_zero_num, div_one_num]
    · by_cases htc : tc = 0
      · simp [calculateNutritionalAlignment, nutritionalAlignmentSpec, hgc, hgp, toNumber,
          truthy_nan, pure, Except.pure, bind, Except.bind, htc, JsNum.truthy]
      · simp [calculateNutritionalAlignment, nutritionalAlignmentSpec, hgc, hgp, toNumber,
          truthy_nan, pure, Except.pure, bind, Except.bind, htc, truthy_num tc htc,
          nutritionField, alignmentTerm, add_zero_num, div_one_num]
    · by_cases htc : tc = 0 <;> by_cases htp : tp = 0
      · simp [calculateNutritionalAlignment, nutritionalAlignmentSpec, hgc, hgp, toNumber,
          pure, Except.pure, bind, Except.bind, htc, htp, JsNum.truthy]
      · simp [calculateNutritionalAlignment, nutritionalAlignmentSpec, hgc, hgp, toNumber,
          pure, Except.pure, bind, Except.bind, htc, htp, truthy_num tp htp,
          nutritionField, alignmentTerm, add_zero_num, div_one_num, JsNum.truthy]
      · simp [calculateNutritionalAlignment, nutritionalAlignmentSpec, hgc, hgp, toNumber,
          pure, Except.pure, bind, Except.bind, htc, htp, truthy_num tc htc,
          nutritionField, alignmentTerm, add_zero_num, div_one_num, JsNum.truthy]
      · simp [calculateNutritionalAlignment, nutritionalAlignmentSpec, hgc, hgp, toNumber,
          pure, Except.pure, bind, Except.bind, htc, htp, truthy_num tc htc, truthy_num tp htp,
          nutritionField, alignmentTerm, add_zero_num]

/-! ## The sub-scores, as specified -/

/-- C11: `checkDietaryCompliance` returns 1 when the restriction list is absent
or empty and when every restriction is an element of the recipe's tags, 0 when
some restriction is not an element of the tags, and never another value. -/
theorem checkDietaryCompliance_spec (recipeTags : List String) :
    checkDietaryCompliance recipeTags none = JsNum.num 1 ∧
      checkDietaryCompliance recipeTags (some []) = JsNum.num 1 ∧
      (∀ restrictions : List String, (∀ r ∈ restrictions, r ∈ recipeTags) →
        checkDietaryCompliance recipeTags (some restrictions) = JsNum.num 1) ∧
      (∀ restrictions : List String, (∃ r ∈ restrictions, r ∉ recipeTags) →
        checkDietaryCompliance recipeTags (some restrictions) = JsNum.num 0) ∧
      ∀ userRestrictions : Option (List String),
        checkDietaryCompliance recipeTags userRestrictions = JsNum.num 1 ∨
          checkDietaryCompliance recipeTags userRestrictions = JsNum.num 0 := by
  refine ⟨rfl, rfl, ?_, ?_, checkDietaryCompliance_cases recipeTags⟩
  · intro restrictions hall
    rw [checkDietaryCompliance_some, if_pos hall]
  · rintro restrictions ⟨r, hr, hnot⟩
    rw [checkDietaryCompliance_some, if_neg]
    intro hall
    exact hnot (hall r hr)

/-- Witness for C11: the unknown tag `invalid-diet` against the tags
`[vegetarian]` gives 0. -/
theorem checkDietaryCompliance_spec_witness :
    checkDietaryCompliance ["vegetarian"] (some ["vegetarian", "invalid-diet"]) = JsNum.num 0 :=
  (checkDietaryCompliance_spec ["vegetarian"]).2.2.2.1 ["vegetarian", "invalid-diet"]
    ⟨"invalid-diet", by decide, by decide⟩

/-- C12: for a recipe that stores a nutrition object, `calculateNutritionalAlignment`
returns the value the specification words (`nutritionalAlignmentSpec`): 0.5
without goals, else the average of `max(0, 1 - |recipeValue - target| / target)`
over those of `targetCalories` and `targetProtein` that are present and
non-zero, 0.5 when there is none.  For any recipe it returns 0.5 without goals
or with both targets absent or zero; `targetCarbs` and `targetFat` do not
change the result, and a target of 0 gives the result of an absent target. -/
theorem calculateNutritionalAlignment_spec (nutrition : Nutrition)
    (goals : Option NutritionalGoals) :
    calculateNutritionalAlignment (some nutrition) goals =
        Except.ok (nutritionalAlignmentSpec nutrition goals) ∧
      (∀ value target : ℚ, target ≠ 0 →
        alignmentTerm (some value) target =
          JsNum.num (Max.max 0 (1 - |value - target| / target))) ∧
      (∀ recipeNutrition : Option Nutrition,
        calculateNutritionalAlignment recipeNutrition none = Except.ok (JsNum.num (1 / 2))) ∧
      (∀ (recipeNutrition : Option Nutrition) (g : NutritionalGoals),
        (g.targetCalories = none ∨ g.targetCalories = some 0) →
        (g.targetProtein = none ∨ g.targetProtein = some 0) →
        calculateNutritionalAlignment recipeNutrition (some g) =
          Except.ok (JsNum.num (1 / 2))) ∧
      (∀ (recipeNutrition : Option Nutrition) (g : NutritionalGoals) (carbs fat : Option ℚ),
        calculateNutritionalAlignment recipeNutrition
            (some { g with targetCarbs := carbs, targetFat := fat }) =
          calculateNutritionalAlignment recipeNutrition (some g)) ∧
      ∀ (recipeNutrition : Option Nutrition) (g : NutritionalGoals),
        calculateNutritionalAlignment recipeNutrition
            (some { g with targetCalories := some 0 }) =
          calculateNutritionalAlignment recipeNutrition
            (some { g with targetCalories := none }) ∧
        calculateNutritionalAlignment recipeNutrition
            (some { g with targetProtein := some 0 }) =
          calculateNutritionalAlignment recipeNutrition
            (some { g with targetProtein := none }) := by
  refine ⟨calculateNutritionalAlignment_eq_spec nutrition goals, ?_, fun _ => rfl, ?_, ?_, ?_⟩
  · intro value target ht
    exact factor_num value target ht
  · intro recipeNutrition g hc hp
    have hc' : (toNumber g.targetCalories).truthy = false := by
      rcases hc with h | h <;> simp [h, toNumber, JsNum.truthy]
    have hp' : (toNumber g.targetProtein).truthy = false := by
      rcases hp with h | h <;> simp [h, toNumber, JsNum.truthy]
    simp [calculateNutritionalAlignment, hc', hp', pure, Except.pure, bind, Except.bind]
  · intro recipeNutrition g carbs fat
    rfl
  · intro recipeNutrition g
    constructor <;>
      simp [calculateNutritionalAlignment, toNumber, JsNum.truthy]

/-- Witness for C12: calories 300 and protein 8 against the targets 400 and 10
give the average of 3/4 and 4/5. -/
theorem calculateNutritionalAlignment_spec_witness :
    calculateNutritionalAlignment (some { calories := some 300, protein := some 8 })
        (some { targetCalories := some 400, targetProtein := some 10 }) =
      Except.ok (JsNum.num (31 / 40)) :=
  (calculateNutritionalAlignment_spec { calories := some 300, protein := some 8 }
    (some { targetCalories := some 400, targetProtein := some 10 })).1.trans (by decide!)

/-- C13: `calculateCostEfficiency` returns 0.5 when the budget object is absent
or its `maxCostPerServing` is absent or zero; for a non-zero limit `max` it
returns `1 - cost / max` when `cost ≤ max`, so 0 at `cost = max`, and 0 when
`cost > max`. -/
theorem calculateCostEfficiency_spec (recipeCost : Option ℚ) :
    calculateCostEfficiency recipeCost none = JsNum.num (1 / 2) ∧
      (∀ budget : BudgetConstraints,
        (budget.maxCostPerServing = none ∨ budget.maxCostPerServing = some 0) →
        calculateCostEfficiency recipeCost (some budget) = JsNum.num (1 / 2)) ∧
      (∀ (budget : BudgetConstraints) (limit cost : ℚ),
        budget.maxCostPerServing = some limit → limit ≠ 0 → cost ≤ limit →
        calculateCostEfficiency (some cost) (some budget) = JsNum.num (1 - cost / limit)) ∧
      (∀ (budget : BudgetConstraints) (limit : ℚ),
        budget.maxCostPerServing = some limit → limit ≠ 0 →
        calculateCostEfficiency (some limit) (some budget) = JsNum.num 0) ∧
      ∀ (budget : BudgetConstraints) (limit cost : ℚ),
        budget.maxCostPerServing = some limit → limit ≠ 0 → limit < cost →
        calculateCostEfficiency (some cost) (some budget) = JsNum.num 0 := by
  have hle : ∀ (budget : BudgetConstraints) (limit cost : ℚ),
      budget.maxCostPerServing = some limit → limit ≠ 0 → cost ≤ limit →
      calculateCostEfficiency (some cost) (some budget) = JsNum.num (1 - cost / limit) := by
    intro budget limit cost hb hl hc
    simp [calculateCostEfficiency, hb, toNumber, JsNum.truthy, hl, JsNum.le, hc, JsNum.sub,
      JsNum.div]
  refine ⟨rfl, ?_, hle, ?_, ?_⟩
  · intro budget hb
    rcases hb with h | h <;> simp [calculateCostEfficiency, h, toNumber, JsNum.truthy]
  · intro budget limit hb hl
    rw [hle budget limit limit hb hl (le_refl _), div_self hl, sub_self]
  · intro budget limit cost hb hl hc
    simp [calculateCostEfficiency, hb, toNumber, JsNum.truthy, hl, JsNum.le, not_le.2 hc]

/-- Witness for C13: cost 10 against the limit 5 gives 0, so 0 of the 15
points. -/
theorem calculateCostEfficiency_spec_witness :
    calculateCostEfficiency (some 10) (some { maxCostPerServing := some 5 }) = JsNum.num 0 ∧
      JsNum.mul (calculateCostEfficiency (some 10) (some { maxCostPerServing := some 5 }))
        (JsNum.num 15) = JsNum.num 0 := by
  have h := (calculateCostEfficiency_spec (some 10)).2.2.2.2
    { maxCostPerServing := some 5 } 5 10 rfl (by norm_num) (by norm_num)
  refine ⟨h, ?_⟩
  rw [h]
  simp [JsNum.mul]

/-! ## Sorting and slicing -/

theorem mapM_ok_of_forall {α β : Type} (f : α → Except JsError β) (l : List α)
    (h : ∀ a ∈ l, ∃ b, f a = Except.ok b) :
    ∃ bs, l.mapM f = Except.ok bs ∧ List.Forall₂ (fun a b => f a = Except.ok b) l bs := by
  induction l with
  | nil => exact ⟨[], rfl, List.Forall₂.nil⟩
  | cons a l ih =>
    obtain ⟨b, hb⟩ := h a (List.mem_cons_self a l)
    obtain ⟨bs, hbs, hrel⟩ := ih fun x hx => h x (List.mem_cons_of_mem a hx)
    refine ⟨b :: bs, ?_, List.Forall₂.cons hb hrel⟩
    rw [List.mapM_cons, hb, hbs]
    rfl

theorem binaryInsert_perm {α : Type} (compareFn : α → α → JsNum) (sorted : List α) (pivot : α) :
    (binaryInsert compareFn sorted pivot).Perm (pivot :: sorted) := by
  unfold binaryInsert
  refine List.perm_middle.trans ?_
  rw [List.take_append_drop]

theorem foldl_binaryInsert_perm {α : Type} (compareFn : α → α → JsNum) (rest acc : List α) :
    (rest.foldl (binaryInsert compareFn) acc).Perm (acc ++ rest) := by
  induction rest generalizing acc with
  | nil => simp
  | cons a rest ih =>
    simp only [List.foldl_cons]
    refine (ih _).trans ?_
    refine ((binaryInsert_perm compareFn acc a).append_right rest).trans ?_
    simpa using (List.perm_middle : (acc ++ a :: rest).Perm (a :: (acc ++ rest))).symm

theorem extendRun_append {α : Type} (compareFn : α → α → JsNum) (isDescending : Bool)
    (previousElement : α) (l : List α) :
    (extendRun compareFn isDescending previousElement l).1 ++
      (extendRun compareFn isDescending previousElement l).2 = l := by
  induction l generalizing previousElement with
  | nil => rfl
  | cons a l ih =>
    simp only [extendRun]
    split_ifs <;> simp [ih]

theorem countAndMakeRun_perm {α : Type} (compareFn : α → α → JsNum) (l : List α) :
    ((countAndMakeRun compareFn l).1 ++ (countAndMakeRun compareFn l).2).Perm l := by
  match l with
  | [] => simp [countAndMakeRun]
  | [a] => simp [countAndMakeRun]
  | a :: b :: rest =>
    simp only [countAndMakeRun]
    have h := extendRun_append compareFn (decide (sortCompare compareFn b a < 0)) b rest
    split
    · refine ((List.reverse_perm _).append_right _).trans ?_
      simp [h]
    · simp [h]

theorem jsSort_perm {α : Type} (compareFn : α → α → JsNum) (l : List α) :
    (jsSort compareFn l).Perm l :=
  (foldl_binaryInsert_perm compareFn _ _).trans (countAndMakeRun_perm compareFn l)

theorem findInsertionPoint_eq {α : Type} (compareFn : α → α → JsNum) (pivot : α)
    (front back : List α)
    (hfront : ∀ e ∈ front, ¬ sortCompare compareFn pivot e < 0)
    (hback : ∀ e ∈ back, sortCompare compareFn pivot e < 0) :
    ∀ steps left right, left ≤ front.length → front.length ≤ right →
      right ≤ (front ++ back).length → right - left ≤ steps →
      findInsertionPoint compareFn pivot (front ++ back) steps left right = front.length := by
  intro steps
  induction steps with
  | zero =>
    intro left right hl hr _ hs
    simp only [findInsertionPoint]
    omega
  | succ steps ih =>
    intro left right hl hr hlen hs
    simp only [findInsertionPoint]
    split
    · next hlt =>
      have hmid : left + (right - left) / 2 < right := by omega
      have hmidlen : left + (right - left) / 2 < (front ++ back).length := by omega
      rw [List.get?_eq_get hmidlen]
      simp only
      by_cases hm : left + (right - left) / 2 < front.length
      · have hel : (front ++ back).get ⟨left + (right - left) / 2, hmidlen⟩ ∈ front := by
          rw [List.get_eq_getElem, List.getElem_append_left hm]
          exact List.getElem_mem _
        rw [if_neg (hfront _ hel)]
        exact ih _ _ (by omega) hr hlen (by omega)
      · have hel : (front ++ back).get ⟨left + (right - left) / 2, hmidlen⟩ ∈ back := by
          rw [List.get_eq_getElem, List.getElem_append_right (not_lt.1 hm)]
          exact List.getElem_mem _
        rw [if_pos (hback _ hel)]
        exact ih _ _ hl (by omega) (by omega) (by omega)
    · omega

theorem findInsertionPoint_steps {α : Type} (compareFn : α → α → JsNum) (pivot : α)
    (sorted : List α) :
    ∀ steps steps' left right, right ≤ sorted.length → right - left ≤ steps →
      right - left ≤ steps' →
      findInsertionPoint compareFn pivot sorted steps left right =
        findInsertionPoint compareFn pivot sorted steps' left right := by
  intro steps
  induction steps with
  | zero =>
    intro steps' left right _ hs _
    cases steps' with
    | zero => rfl
    | succ n =>
      simp only [findInsertionPoint]
      rw [if_neg (by omega)]
  | succ steps ih =>
    intro steps' left right hlen hs hs'
    cases steps' with
    | zero =>
      simp only [findInsertionPoint]
      rw [if_neg (by omega)]
    | succ n =>
      simp only [findInsertionPoint]
      split
      · next hlt =>
        have hmidlen : left + (right - left) / 2 < sorted.length := by omega
        rw [List.get?_eq_get hmidlen]
        simp only
        split
        · exact ih _ _ _ (by omega) (by omega) (by omega)
        · exact ih _ _ _ hlen (by omega) (by omega)
      · rfl

theorem binaryInsert_eq {α : Type} (compareFn : α → α → JsNum) (pivot : α)
    (front back : List α)
    (hfront : ∀ e ∈ front, ¬ sortCompare compareFn pivot e < 0)
    (hback : ∀ e ∈ back, sortCompare compareFn pivot e < 0) :
    binaryInsert compareFn (front ++ back) pivot = front ++ pivot :: back := by
  unfold binaryInsert
  simp only
  rw [findInsertionPoint_eq compareFn pivot front back hfront hback _ 0 _ (Nat.zero_le _)
    (by simp) le_rfl (by simp)]
  simp


theorem desc_split {α : Type} (s : α → ℚ) (q : ℚ) (sorted : List α)
    (h : sorted.Pairwise fun x y => s y ≤ s x) :
    ∃ front back, sorted = front ++ back ∧ (∀ e ∈ front, q ≤ s e) ∧ ∀ e ∈ back, s e < q := by
  induction sorted with
  | nil => exact ⟨[], [], rfl, by simp, by simp⟩
  | cons a l ih =>
    obtain ⟨hal, hl⟩ := List.pairwise_cons.1 h
    by_cases ha : q ≤ s a
    · obtain ⟨front, back, rfl, hf, hb⟩ := ih hl
      refine ⟨a :: front, back, rfl, ?_, hb⟩
      intro e he
      rcases List.mem_cons.1 he with rfl | he
      · exact ha
      · exact hf e he
    · refine ⟨[], a :: l, rfl, by simp, ?_⟩
      intro e he
      rcases List.mem_cons.1 he with rfl | he
      · exact not_le.1 ha
      · exact lt_of_le_of_lt (hal e he) (not_le.1 ha)

theorem binaryInsert_spec {α : Type} (compareFn : α → α → JsNum) (s : α → ℚ)
    (sorted : List α) (pivot : α)
    (hcmp : ∀ e ∈ sorted, sortCompare compareFn pivot e = s e - s pivot)
    (hsorted : sorted.Pairwise fun x y => s y ≤ s x) :
    ∃ front back, sorted = front ++ back ∧
      binaryInsert compareFn sorted pivot = front ++ pivot :: back ∧
      (∀ e ∈ front, s pivot ≤ s e) ∧ ∀ e ∈ back, s e < s pivot := by
  obtain ⟨front, back, rfl, hf, hb⟩ := desc_split s (s pivot) sorted hsorted
  refine ⟨front, back, rfl, ?_, hf, hb⟩
  apply binaryInsert_eq
  · intro e he
    rw [hcmp e (List.mem_append_left _ he)]
    have := hf e he
    linarith
  · intro e he
    rw [hcmp e (List.mem_append_right _ he)]
    have := hb e he
    linarith

theorem binaryInsert_pairwise {α : Type} (compareFn : α → α → JsNum) (s : α → ℚ)
    (sorted : List α) (pivot : α)
    (hcmp : ∀ e ∈ sorted, sortCompare compareFn pivot e = s e - s pivot)
    (hsorted : sorted.Pairwise fun x y => s y ≤ s x) :
    (binaryInsert compareFn sorted pivot).Pairwise fun x y => s y ≤ s x := by
  obtain ⟨front, back, rfl, heq, hf, hb⟩ := binaryInsert_spec compareFn s sorted pivot hcmp hsorted
  rw [heq]
  obtain ⟨h1, h2, h3⟩ := List.pairwise_append.1 hsorted
  refine List.pairwise_append.2 ⟨h1, List.pairwise_cons.2 ⟨fun e he => (hb e he).le, h2⟩, ?_⟩
  intro x hx y hy
  rcases List.mem_cons.1 hy with rfl | hy
  · exact hf x hx
  · exact h3 x hx y hy

theorem binaryInsert_filter {α : Type} (compareFn : α → α → JsNum) (s : α → ℚ)
    (p : α → Bool) (sorted : List α) (pivot : α)
    (hcmp : ∀ e ∈ sorted, sortCompare compareFn pivot e = s e - s pivot)
    (hp : ∀ e ∈ sorted, p pivot = true → p e = true → s e = s pivot)
    (hsorted : sorted.Pairwise fun x y => s y ≤ s x) :
    (binaryInsert compareFn sorted pivot).filter p = (sorted ++ [pivot]).filter p := by
  obtain ⟨front, back, rfl, heq, _, hb⟩ := binaryInsert_spec compareFn s sorted pivot hcmp hsorted
  rw [heq]
  by_cases hpivot : p pivot = true
  · have hback : back.filter p = [] := by
      rw [List.filter_eq_nil_iff]
      intro e he hpe
      have := hp e (List.mem_append_right _ he) hpivot hpe
      have := hb e he
      linarith
    simp [List.filter_cons, hpivot, hback]
  · simp [List.filter_cons, hpivot]

theorem mem_binaryInsert {α : Type} (compareFn : α → α → JsNum) (sorted : List α) (pivot x : α) :
    x ∈ binaryInsert compareFn sorted pivot ↔ x = pivot ∨ x ∈ sorted := by
  rw [(binaryInsert_perm compareFn sorted pivot).mem_iff, List.mem_cons]

theorem foldl_binaryInsert_spec {α : Type} (compareFn : α → α → JsNum) (s : α → ℚ)
    (p : α → Bool) (rest acc : List α)
    (hcmp : ∀ x ∈ acc ++ rest, ∀ y ∈ acc ++ rest, sortCompare compareFn x y = s y - s x)
    (hp : ∀ x ∈ acc ++ rest, ∀ y ∈ acc ++ rest, p x = true → p y = true → s x = s y)
    (hacc : acc.Pairwise fun x y => s y ≤ s x) :
    ((rest.foldl (binaryInsert compareFn) acc).Pairwise fun x y => s y ≤ s x) ∧
      (rest.foldl (binaryInsert compareFn) acc).filter p = (acc ++ rest).filter p := by
  induction rest generalizing acc with
  | nil => simpa using hacc
  | cons a rest ih =>
    have hsub : ∀ x, x ∈ binaryInsert compareFn acc a ++ rest → x ∈ acc ++ a :: rest := by
      intro x hx
      rcases List.mem_append.1 hx with hx | hx
      · rcases (mem_binaryInsert compareFn acc a x).1 hx with rfl | hx
        · simp
        · exact List.mem_append_left _ hx
      · exact List.mem_append_right _ (List.mem_cons_of_mem _ hx)
    have ha : a ∈ acc ++ a :: rest := by simp
    have hacc' : ∀ e ∈ acc, e ∈ acc ++ a :: rest := fun e he => List.mem_append_left _ he
    obtain ⟨h1, h2⟩ := ih (binaryInsert compareFn acc a)
      (fun x hx y hy => hcmp x (hsub x hx) y (hsub y hy))
      (fun x hx y hy => hp x (hsub x hx) y (hsub y hy))
      (binaryInsert_pairwise compareFn s acc a (fun e he => hcmp a ha e (hacc' e he)) hacc)
    refine ⟨h1, ?_⟩
    simp only [List.foldl_cons]
    rw [h2, List.filter_append, binaryInsert_filter compareFn s p acc a
      (fun e he => hcmp a ha e (hacc' e he))
      (fun e he hpa hpe => hp e (hacc' e he) a ha hpe hpa) hacc,
      ← List.filter_append, List.append_assoc, List.singleton_append]

theorem extendRun_chain_ascending {α : Type} (compareFn : α → α → JsNum) (s : α → ℚ)
    (previousElement : α) (l : List α)
    (hcmp : ∀ x ∈ previousElement :: l, ∀ y ∈ previousElement :: l,
      sortCompare compareFn x y = s y - s x) :
    List.Chain (fun x y => s y ≤ s x) previousElement
      (extendRun compareFn false previousElement l).1 := by
  induction l generalizing previousElement with
  | nil => exact List.Chain.nil
  | cons a l ih =>
    have hc := hcmp a (by simp) previousElement (by simp)
    by_cases h : sortCompare compareFn a previousElement < 0
    · simp [extendRun, h]
    · simp only [extendRun, Bool.false_eq_true, if_false, decide_eq_true_eq, if_neg h]
      refine List.Chain.cons ?_ (ih a fun x hx y hy =>
        hcmp x (List.mem_cons_of_mem _ hx) y (List.mem_cons_of_mem _ hy))
      rw [hc] at h
      linarith

theorem extendRun_chain_descending {α : Type} (compareFn : α → α → JsNum) (s : α → ℚ)
    (previousElement : α) (l : List α)
    (hcmp : ∀ x ∈ previousElement :: l, ∀ y ∈ previousElement :: l,
      sortCompare compareFn x y = s y - s x) :
    List.Chain (fun x y => s x < s y) previousElement
      (extendRun compareFn true previousElement l).1 := by
  induction l generalizing previousElement with
  | nil => exact List.Chain.nil
  | cons a l ih =>
    have hc := hcmp a (by simp) previousElement (by simp)
    by_cases h : 0 ≤ sortCompare compareFn a previousElement
    · simp [extendRun, h]
    · simp only [extendRun, if_true, decide_eq_true_eq, if_neg h]
      refine List.Chain.cons ?_ (ih a fun x hx y hy =>
        hcmp x (List.mem_cons_of_mem _ hx) y (List.mem_cons_of_mem _ hy))
      rw [hc] at h
      linarith


theorem reverse_filter_of_strict {α : Type} (s : α → ℚ) (p : α → Bool) (run : List α)
    (hrun : run.Pairwise fun x y => s x < s y)
    (hp : ∀ x ∈ run, ∀ y ∈ run, p x = true → p y = true → s x = s y) :
    run.reverse.filter p = run.filter p := by
  induction run with
  | nil => rfl
  | cons a l ih =>
    obtain ⟨hal, hl⟩ := List.pairwise_cons.1 hrun
    have ih' := ih hl fun x hx y hy =>
      hp x (List.mem_cons_of_mem _ hx) y (List.mem_cons_of_mem _ hy)
    rw [List.reverse_cons, List.filter_append, ih']
    by_cases hpa : p a = true
    · have hnil : l.filter p = [] := by
        rw [List.filter_eq_nil_iff]
        intro e he hpe
        have := hp a (List.mem_cons_self _ _) e (List.mem_cons_of_mem _ he) hpa hpe
        have := hal e he
        linarith
      simp [List.filter_cons, hpa, hnil]
    · simp [List.filter_cons, hpa]

theorem countAndMakeRun_spec {α : Type} (compareFn : α → α → JsNum) (s : α → ℚ)
    (p : α → Bool) (l : List α)
    (hcmp : ∀ x ∈ l, ∀ y ∈ l, sortCompare compareFn x y = s y - s x)
    (hp : ∀ x ∈ l, ∀ y ∈ l, p x = true → p y = true → s x = s y) :
    ((countAndMakeRun compareFn l).1.Pairwise fun x y => s y ≤ s x) ∧
      ((countAndMakeRun compareFn l).1 ++ (countAndMakeRun compareFn l).2).filter p =
        l.filter p := by
  match l with
  | [] => simp [countAndMakeRun]
  | [a] => simp [countAndMakeRun]
  | a :: b :: rest =>
    have happ := extendRun_append compareFn (decide (sortCompare compareFn b a < 0)) b rest
    have hc := hcmp b (by simp) a (by simp)
    have hcmp' : ∀ x ∈ b :: rest, ∀ y ∈ b :: rest, sortCompare compareFn x y = s y - s x :=
      fun x hx y hy => hcmp x (List.mem_cons_of_mem _ hx) y (List.mem_cons_of_mem _ hy)
    simp only [countAndMakeRun]
    by_cases h : sortCompare compareFn b a < 0
    · have hchain := extendRun_chain_descending compareFn s b rest hcmp'
      simp only [h, decide_True, if_true] at happ ⊢
      have hab : s a < s b := by rw [hc] at h; linarith
      haveI : IsTrans α (fun x y => s x < s y) := ⟨fun _ _ _ h1 h2 => lt_trans h1 h2⟩
      have hpair : (a :: b :: (extendRun compareFn true b rest).1).Pairwise
          fun x y => s x < s y :=
        List.chain_iff_pairwise.1 (List.Chain.cons hab hchain)
      have hmem : ∀ x ∈ a :: b :: (extendRun compareFn true b rest).1, x ∈ a :: b :: rest := by
        intro x hx
        rw [← happ]
        simp only [List.mem_cons, List.mem_append] at hx ⊢
        tauto
      refine ⟨?_, ?_⟩
      · rw [List.pairwise_reverse]
        exact hpair.imp fun hxy => hxy.le
      · rw [List.filter_append, reverse_filter_of_strict s p _ hpair
          (fun x hx y hy => hp x (hmem x hx) y (hmem y hy)), ← List.filter_append]
        simp [happ]
    · have hchain := extendRun_chain_ascending compareFn s b rest hcmp'
      simp only [h, decide_False, Bool.false_eq_true, if_false] at happ ⊢
      have hab : s b ≤ s a := by rw [hc] at h; linarith
      haveI : IsTrans α (fun x y => s y ≤ s x) := ⟨fun _ _ _ h1 h2 => le_trans h2 h1⟩
      refine ⟨List.chain_iff_pairwise.1 (List.Chain.cons hab hchain), ?_⟩
      simp [happ]

theorem jsSort_spec {α : Type} (compareFn : α → α → JsNum) (s : α → ℚ)
    (p : α → Bool) (l : List α)
    (hcmp : ∀ x ∈ l, ∀ y ∈ l, sortCompare compareFn x y = s y - s x)
    (hp : ∀ x ∈ l, ∀ y ∈ l, p x = true → p y = true → s x = s y) :
    ((jsSort compareFn l).Pairwise fun x y => s y ≤ s x) ∧
      (jsSort compareFn l).filter p = l.filter p := by
  obtain ⟨hrun, hfilter⟩ := countAndMakeRun_spec compareFn s p l hcmp hp
  have hmem : ∀ x ∈ (countAndMakeRun compareFn l).1 ++ (countAndMakeRun compareFn l).2,
      x ∈ l := fun x hx => (countAndMakeRun_perm compareFn l).mem_iff.1 hx
  obtain ⟨h1, h2⟩ := foldl_binaryInsert_spec compareFn s p (countAndMakeRun compareFn l).2
    (countAndMakeRun compareFn l).1
    (fun x hx y hy => hcmp x (hmem x hx) y (hmem y hy))
    (fun x hx y hy => hp x (hmem x hx) y (hmem y hy)) hrun
  exact ⟨h1, h2.trans hfilter⟩

theorem sortCompare_of_numeric {α : Type} (score : α → JsNum) (l : List α)
    (hnum : ∀ x ∈ l, ∃ q, score x = JsNum.num q) :
    ∃ s : α → ℚ, (∀ x ∈ l, score x = JsNum.num (s x)) ∧
      ∀ x ∈ l, ∀ y ∈ l,
        sortCompare (fun a b => JsNum.sub (score b) (score a)) x y = s y - s x := by
  refine ⟨fun x => match score x with | JsNum.num q => q | JsNum.nan => 0, ?_, ?_⟩
  · intro x hx
    obtain ⟨q, hq⟩ := hnum x hx
    simp [hq]
  · intro x hx y hy
    obtain ⟨qx, hqx⟩ := hnum x hx
    obtain ⟨qy, hqy⟩ := hnum y hy
    simp [sortCompare, hqx, hqy, JsNum.sub]

theorem jsSort_sorted {α : Type} (score : α → JsNum) (l : List α)
    (hnum : ∀ x ∈ l, ∃ q, score x = JsNum.num q) :
    (jsSort (fun a b => JsNum.sub (score b) (score a)) l).Pairwise
      fun x y => JsNum.le (score y) (score x) = true := by
  obtain ⟨s, hs, hcmp⟩ := sortCompare_of_numeric score l hnum
  obtain ⟨h, _⟩ := jsSort_spec _ s (fun _ => false) l hcmp (by simp)
  refine h.imp_of_mem ?_
  intro x y hx hy hxy
  rw [hs x ((jsSort_perm _ l).mem_iff.1 hx), hs y ((jsSort_perm _ l).mem_iff.1 hy)]
  simpa [JsNum.le] using hxy

theorem jsSort_filter {α : Type} (score : α → JsNum) (l : List α)
    (hnum : ∀ x ∈ l, ∃ q, score x = JsNum.num q) (p : α → Bool)
    (hp : ∀ a b, p a = true → p b = true → score a = score b) :
    (jsSort (fun a b => JsNum.sub (score b) (score a)) l).filter p = l.filter p := by
  obtain ⟨s, hs, hcmp⟩ := sortCompare_of_numeric score l hnum
  refine (jsSort_spec _ s p l hcmp ?_).2
  intro x hx y hy hpx hpy
  have := hp x y hpx hpy
  rw [hs x hx, hs y hy] at this
  exact JsNum.num.inj this

/-- The sort on the scores 53, 83, `NaN`, 63: the descending run 53, 83 is
reversed, `NaN` compares as a tie and stays behind it, and 63 is placed between
83 and 53. -/
theorem jsSort_nan_scores :
    jsSort (fun a b : JsNum => JsNum.sub b a)
        [JsNum.num 53, JsNum.num 83, JsNum.nan, JsNum.num 63] =
      [JsNum.num 83, JsNum.num 63, JsNum.num 53, JsNum.nan] := by
  decide!

theorem sliceFromStart_of_nonneg {α : Type} (l : List α) (stop : ℤ) (h : 0 ≤ stop) :
    sliceFromStart l stop = l.take stop.toNat := by
  simp [sliceFromStart, not_lt.2 h]

theorem sliceFromStart_initial {α : Type} (l : List α) (stop : ℤ) :
    sliceFromStart l stop <+: l := by
  unfold sliceFromStart
  split <;> exact List.take_prefix _ _

/-! ## The route `POST /recipes` -/

theorem forall₂_mem_right {α β : Type} {R : α → β → Prop} {l₁ : List α} {l₂ : List β}
    (h : List.Forall₂ R l₁ l₂) : ∀ b ∈ l₂, ∃ a ∈ l₁, R a b := by
  induction h with
  | nil => intro b hb; cases hb
  | cons hab _ ih =>
    intro b hb
    rcases List.mem_cons.1 hb with rfl | hb
    · exact ⟨_, List.mem_cons_self _ _, hab⟩
    · obtain ⟨a, ha, hr⟩ := ih b hb
      exact ⟨a, List.mem_cons_of_mem _ ha, hr⟩

theorem forall₂_map_eq {α β : Type} {R : α → β → Prop} (g : β → α) {l₁ : List α}
    {l₂ : List β} (h : List.Forall₂ R l₁ l₂) (hg : ∀ a b, R a b → g b = a) :
    l₂.map g = l₁ := by
  induction h with
  | nil => rfl
  | cons hab _ ih => simp [hg _ _ hab, ih]

theorem scoreRecipe_ok (userPreferences : UserPreferences) (available : List String)
    (recipe : Recipe) (score : JsNum)
    (h : calculateRecipeScore recipe userPreferences (some available) = Except.ok score) :
    ∃ scored, scoreRecipe userPreferences (some available) recipe = Except.ok scored ∧
      scored.recipe = recipe ∧ scored.optimizationScore = score := by
  simp only [scoreRecipe, h, findMissingIngredients_some, bind, Except.bind, pure, Except.pure]
  exact ⟨_, rfl, rfl, rfl⟩

theorem scoreRecipe_inv (userPreferences : UserPreferences)
    (availableIngredients : Option (List String)) (recipe : Recipe) (scored : ScoredRecipe)
    (h : scoreRecipe userPreferences availableIngredients recipe = Except.ok scored) :
    scored.recipe = recipe ∧
      calculateRecipeScore recipe userPreferences availableIngredients =
        Except.ok scored.optimizationScore := by
  simp only [scoreRecipe, bind, Except.bind, pure, Except.pure] at h
  cases hs : calculateRecipeScore recipe userPreferences availableIngredients with
  | error e => simp [hs] at h
  | ok s =>
    cases hm : findMissingIngredients recipe.ingredients availableIngredients with
    | error e => simp [hs, hm] at h
    | ok m =>
      simp only [hs, hm, Except.ok.injEq] at h
      subst h
      exact ⟨rfl, rfl⟩

theorem postRecipes_of_mapM (allRecipes : List Recipe) (body : OptimizeRequest)
    (scored : List ScoredRecipe)
    (h : allRecipes.mapM (scoreRecipe (requestPreferences body)
      (some (body.availableIngredients.getD []))) = Except.ok scored) :
    postRecipes allRecipes body =
      Except.ok (sliceFromStart
        (jsSort (fun a b => JsNum.sub b.optimizationScore a.optimizationScore) scored)
        (body.maxResults.getD 10)) := by
  simp only [postRecipes, h, bind, Except.bind, pure, Except.pure]

theorem scored_of_numeric (allRecipes : List Recipe) (body : OptimizeRequest)
    (hnum : ∀ recipe ∈ allRecipes, ∃ q : ℚ,
      calculateRecipeScore recipe (requestPreferences body)
        (some (body.availableIngredients.getD [])) = Except.ok (JsNum.num q)) :
    ∃ scored : List ScoredRecipe,
      allRecipes.mapM (scoreRecipe (requestPreferences body)
        (some (body.availableIngredients.getD []))) = Except.ok scored ∧
      List.Forall₂ (fun recipe s => scoreRecipe (requestPreferences body)
        (some (body.availableIngredients.getD [])) recipe = Except.ok s) allRecipes scored ∧
      scored.map (fun s => s.recipe) = allRecipes ∧
      ∀ s ∈ scored, ∃ q : ℚ, s.optimizationScore = JsNum.num q := by
  obtain ⟨scored, hmap, hrel⟩ := mapM_ok_of_forall
    (scoreRecipe (requestPreferences body) (some (body.availableIngredients.getD [])))
    allRecipes (by
      intro recipe hr
      obtain ⟨q, hq⟩ := hnum recipe hr
      obtain ⟨s, hs, _⟩ := scoreRecipe_ok _ _ recipe _ hq
      exact ⟨s, hs⟩)
  refine ⟨scored, hmap, hrel, ?_, ?_⟩
  · exact forall₂_map_eq (fun s => s.recipe) hrel
      fun a b hab => (scoreRecipe_inv _ _ a b hab).1
  · intro s hs
    obtain ⟨recipe, hr, hrs⟩ := forall₂_mem_right hrel s hs
    obtain ⟨q, hq⟩ := hnum recipe hr
    have := (scoreRecipe_inv _ _ recipe s hrs).2
    rw [hq] at this
    exact ⟨q, (Except.ok.inj this).symm⟩

/-- C14: when every fetched recipe gets a numeric score under the criteria,
`POST /recipes` answers with a list ordered by non-increasing
`optimizationScore`: each element's score is at least the score of every later
element, so of the next one. -/
theorem postRecipes_sorted (allRecipes : List Recipe) (body : OptimizeRequest)
    (hnum : ∀ recipe ∈ allRecipes, ∃ q : ℚ,
      calculateRecipeScore recipe (requestPreferences body)
        (some (body.availableIngredients.getD [])) = Except.ok (JsNum.num q)) :
    ∃ data, postRecipes allRecipes body = Except.ok data ∧
      data.Pairwise (fun a b => JsNum.le b.optimizationScore a.optimizationScore = true) ∧
      data.Chain' (fun a b => JsNum.le b.optimizationScore a.optimizationScore = true) := by
  obtain ⟨scored, hmap, _, _, hq⟩ := scored_of_numeric allRecipes body hnum
  have hsorted := jsSort_sorted (fun s : ScoredRecipe => s.optimizationScore) scored hq
  have hpair := hsorted.sublist
    (sliceFromStart_initial (jsSort (fun a b : ScoredRecipe =>
      JsNum.sub b.optimizationScore a.optimizationScore) scored)
      (body.maxResults.getD 10)).sublist
  exact ⟨_, postRecipes_of_mapM allRecipes body scored hmap, hpair,
    List.Pairwise.chain' hpair⟩

/-- Witness for C14: three test recipes with only flour available come back in
the order 83, 63, 53. -/
theorem postRecipes_sorted_witness :
    ∃ data, postRecipes [cakeRecipe, flourRecipe, pancakeRecipe]
        { availableIngredients := some ["flour"] } = Except.ok data ∧
      data.map (fun s => s.optimizationScore) = [JsNum.num 83, JsNum.num 63, JsNum.num 53] := by
  obtain ⟨data, h, _⟩ := postRecipes_sorted [cakeRecipe, flourRecipe, pancakeRecipe]
    { availableIngredients := some ["flour"] } (by
      intro recipe hr
      simp only [List.mem_cons, List.mem_singleton, List.not_mem_nil, or_false] at hr
      rcases hr with rfl | rfl | rfl
      · exact ⟨53, by decide!⟩
      · exact ⟨83, by decide!⟩
      · exact ⟨63, by decide!⟩)
  refine ⟨data, h, ?_⟩
  have h' : postRecipes [cakeRecipe, flourRecipe, pancakeRecipe]
      { availableIngredients := some ["flour"] } =
      Except.ok [⟨flourRecipe, JsNum.num 83, [], JsNum.num 100⟩,
        ⟨pancakeRecipe, JsNum.num 63, [milk], JsNum.num 50⟩,
        ⟨cakeRecipe, JsNum.num 53, [milk, eggs, butter], JsNum.num 25⟩] := by decide!
  rw [h'] at h
  rw [← Except.ok.inj h]
  rfl

/-- C15, as stated, fails: of seven fetched recipes with the scores 83, 83, 43,
`NaN` (no ingredients), 53, 63, 53, in this order, the answer lists `second
cake` (53, fetched last) before `cake` (53, fetched fifth): the comparisons
with the `NaN` score count as ties, and the binary search then places 63 and
the second 53 in front of the first 53. -/
theorem postRecipes_stable_counterexample :
    (postRecipes
        [flourRecipe, plainRecipe, milkRecipe, bareRecipe, cakeRecipe, pancakeRecipe,
          secondCakeRecipe]
        { availableIngredients := some ["flour"] }).map
        (fun data => data.map fun s => (s.recipe.title, s.optimizationScore)) =
      Except.ok [("flour only", JsNum.num 83), ("plain", JsNum.num 83),
        ("pancakes", JsNum.num 63), ("second cake", JsNum.num 53),
        ("milk only", JsNum.num 43), ("bare", JsNum.nan), ("cake", JsNum.num 53)] := by
  decide!

/-- C15, amended: when every fetched recipe gets a numeric score, the sort of
`POST /recipes` is stable: for every score `v`, the returned records with score
`v` are, in order, an initial segment of the records with score `v` taken in
the order of the fetched collection, so their recipes appear in the fetched
collection in the same relative order. -/
theorem postRecipes_stable (allRecipes : List Recipe) (body : OptimizeRequest)
    (hnum : ∀ recipe ∈ allRecipes, ∃ q : ℚ,
      calculateRecipeScore recipe (requestPreferences body)
        (some (body.availableIngredients.getD [])) = Except.ok (JsNum.num q)) :
    ∃ data scored, postRecipes allRecipes body = Except.ok data ∧
      List.Forall₂ (fun recipe s => scoreRecipe (requestPreferences body)
        (some (body.availableIngredients.getD [])) recipe = Except.ok s) allRecipes scored ∧
      ∀ v : JsNum,
        (data.filter fun s => decide (s.optimizationScore = v)) <+:
            (scored.filter fun s => decide (s.optimizationScore = v)) ∧
          List.Sublist
            ((data.filter fun s => decide (s.optimizationScore = v)).map fun s => s.recipe)
            allRecipes := by
  obtain ⟨scored, hmap, hrel, hrecipes, hq⟩ := scored_of_numeric allRecipes body hnum
  refine ⟨_, scored, postRecipes_of_mapM allRecipes body scored hmap, hrel, ?_⟩
  intro v
  have hfilter := jsSort_filter (fun s : ScoredRecipe => s.optimizationScore) scored hq
    (fun s => decide (s.optimizationScore = v)) (by
      intro a b ha hb
      simp only [decide_eq_true_eq] at ha hb
      exact ha.trans hb.symm)
  have hinit : (List.filter (fun s => decide (s.optimizationScore = v))
      (sliceFromStart (jsSort (fun a b : ScoredRecipe =>
        JsNum.sub b.optimizationScore a.optimizationScore) scored)
        (body.maxResults.getD 10))) <+:
      (scored.filter fun s => decide (s.optimizationScore = v)) := by
    rw [← hfilter]
    exact (sliceFromStart_initial _ _).filter _
  refine ⟨hinit, ?_⟩
  have hsub : List.Sublist (List.filter (fun s => decide (s.optimizationScore = v))
      (sliceFromStart (jsSort (fun a b : ScoredRecipe =>
        JsNum.sub b.optimizationScore a.optimizationScore) scored)
        (body.maxResults.getD 10))) scored :=
    hinit.sublist.trans (List.filter_sublist scored)
  have := hsub.map fun s => s.recipe
  rwa [hrecipes] at this

/-- Witness for C15 as amended: `plain` and `flour only` both score 83 and keep their
fetched order in front of `pancakes` (63). -/
theorem postRecipes_stable_witness :
    ∃ data, postRecipes [pancakeRecipe, plainRecipe, flourRecipe]
        { availableIngredients := some ["flour"] } = Except.ok data ∧
      data.map (fun s => s.recipe.title) = ["plain", "flour only", "pancakes"] := by
  obtain ⟨data, _, h, _⟩ := postRecipes_stable [pancakeRecipe, plainRecipe, flourRecipe]
    { availableIngredients := some ["flour"] } (by
      intro recipe hr
      simp only [List.mem_cons, List.mem_singleton, List.not_mem_nil, or_false] at hr
      rcases hr with rfl | rfl | rfl
      · exact ⟨63, by decide!⟩
      · exact ⟨83, by decide!⟩
      · exact ⟨83, by decide!⟩)
  refine ⟨data, h, ?_⟩
  have h' : postRecipes [pancakeRecipe, plainRecipe, flourRecipe]
      { availableIngredients := some ["flour"] } =
      Except.ok [⟨plainRecipe, JsNum.num 83, [], JsNum.num 100⟩,
        ⟨flourRecipe, JsNum.num 83, [], JsNum.num 100⟩,
        ⟨pancakeRecipe, JsNum.num 63, [milk], JsNum.num 50⟩] := by decide!
  rw [h'] at h
  rw [← Except.ok.inj h]
  rfl

/-- C16, as stated, fails: of the fetched recipes `bare` (no ingredients, score
`NaN`) and `flour only` (score 83) with `maxResults` 1, the answer is `bare`
alone, and the score 83 of the recipe left out is not `<=` the score `NaN` of
the recipe returned (nor is `NaN <= 83`, so the other order would fail too). -/
theorem postRecipes_top_counterexample :
    postRecipes [bareRecipe, flourRecipe]
        { availableIngredients := some ["flour"], maxResults := some 1 } =
        Except.ok [⟨bareRecipe, JsNum.nan, [], JsNum.nan⟩] ∧
      scoreRecipe
        (requestPreferences { availableIngredients := some ["flour"], maxResults := some 1 })
        (some ["flour"]) flourRecipe =
        Except.ok ⟨flourRecipe, JsNum.num 83, [], JsNum.num 100⟩ ∧
      JsNum.le (JsNum.num 83) JsNum.nan = false ∧
      JsNum.le JsNum.nan (JsNum.num 83) = false := by
  refine ⟨by decide!, by decide!, rfl, rfl⟩

/-- C16, amended: when every fetched recipe gets a numeric score and
`maxResults` is a positive integer (10 when absent), `POST /recipes` answers
with exactly `min(n, maxResults)` records; together with the records left out
they are a rearrangement of the records of the `n` fetched recipes, so each
comes from a distinct fetched recipe; and every record left out has a score
`<=` the score of every record returned. -/
theorem postRecipes_top (allRecipes : List Recipe) (body : OptimizeRequest)
    (hnum : ∀ recipe ∈ allRecipes, ∃ q : ℚ,
      calculateRecipeScore recipe (requestPreferences body)
        (some (body.availableIngredients.getD [])) = Except.ok (JsNum.num q))
    (hmax : ∀ k, body.maxResults = some k → 0 < k) :
    ∃ data rest scored, postRecipes allRecipes body = Except.ok data ∧
      data.length = min allRecipes.length (body.maxResults.getD 10).toNat ∧
      List.Forall₂ (fun recipe s => scoreRecipe (requestPreferences body)
        (some (body.availableIngredients.getD [])) recipe = Except.ok s) allRecipes scored ∧
      (data ++ rest).Perm scored ∧
      ∀ x ∈ rest, ∀ y ∈ data,
        JsNum.le x.optimizationScore y.optimizationScore = true := by
  obtain ⟨scored, hmap, hrel, hrecipes, hq⟩ := scored_of_numeric allRecipes body hnum
  have hk : 0 ≤ body.maxResults.getD 10 := by
    cases hm : body.maxResults with
    | none => simp
    | some k => simpa using (hmax k hm).le
  have hsorted := jsSort_sorted (fun s : ScoredRecipe => s.optimizationScore) scored hq
  have hperm := jsSort_perm
    (fun a b : ScoredRecipe => JsNum.sub b.optimizationScore a.optimizationScore) scored
  have hlen : scored.length = allRecipes.length := by
    rw [← hrecipes, List.length_map]
  refine ⟨_, (jsSort (fun a b : ScoredRecipe =>
      JsNum.sub b.optimizationScore a.optimizationScore) scored).drop
      (body.maxResults.getD 10).toNat, scored,
    postRecipes_of_mapM allRecipes body scored hmap, ?_, hrel, ?_, ?_⟩
  · rw [sliceFromStart_of_nonneg _ _ hk, List.length_take, hperm.length_eq, hlen,
      Nat.min_comm]
  · rw [sliceFromStart_of_nonneg _ _ hk, List.take_append_drop]
    exact hperm
  · intro x hx y hy
    rw [sliceFromStart_of_nonneg _ _ hk] at hy
    exact List.Sorted.rel_of_mem_take_of_mem_drop hsorted hy hx

/-- Witness for C16 as amended: of three fetched recipes with `maxResults` 2 the
two best are returned. -/
theorem postRecipes_top_witness :
    ∃ data, postRecipes [cakeRecipe, flourRecipe, pancakeRecipe]
        { availableIngredients := some ["flour"], maxResults := some 2 } = Except.ok data ∧
      data.length = 2 := by
  obtain ⟨data, _, _, h, hlen, _⟩ := postRecipes_top [cakeRecipe, flourRecipe, pancakeRecipe]
    { availableIngredients := some ["flour"], maxResults := some 2 } (by
      intro recipe hr
      simp only [List.mem_cons, List.mem_singleton, List.not_mem_nil, or_false] at hr
      rcases hr with rfl | rfl | rfl
      · exact ⟨53, by decide!⟩
      · exact ⟨83, by decide!⟩
      · exact ⟨63, by decide!⟩) (by
      intro k hk
      cases hk
      norm_num)
  exact ⟨data, h, by simpa using hlen⟩

/-! ## The substitution resolver -/

theorem findSubstitutions_of_entry (store : SubstitutionStore) (ingredientName : String)
    (dietaryRestrictions : List String) (entry : SubstitutionEntry)
    (h : store (toLowerCase ingredientName) = Except.ok (some entry)) :
    findSubstitutions store ingredientName dietaryRestrictions =
      Except.ok ((entry.substitutes.filter fun sub =>
        if dietaryRestrictions.length = 0 then true
        else dietaryRestrictions.any fun restriction =>
          sub.dietaryBenefits.contains restriction).map fun sub =>
            { substitute := sub, adjustedAmount := sub.ratio }) := by
  simp only [findSubstitutions, h]
  rfl

theorem findSubstitutions_of_none (store : SubstitutionStore) (ingredientName : String)
    (dietaryRestrictions : List String)
    (h : store (toLowerCase ingredientName) = Except.ok none) :
    findSubstitutions store ingredientName dietaryRestrictions = Except.ok [] := by
  simp only [findSubstitutions, h]
  rfl

theorem findSubstitutions_of_error (store : SubstitutionStore) (ingredientName : String)
    (dietaryRestrictions : List String) (e : JsError)
    (h : store (toLowerCase ingredientName) = Except.error e) :
    findSubstitutions store ingredientName dietaryRestrictions = Except.ok [] := by
  simp only [findSubstitutions, h]
  rfl

theorem findSubstitutions_ok (store : SubstitutionStore) (ingredientName : String)
    (dietaryRestrictions : List String) :
    ∃ found, findSubstitutions store ingredientName dietaryRestrictions = Except.ok found := by
  cases h : store (toLowerCase ingredientName) with
  | error e => exact ⟨_, findSubstitutions_of_error store _ _ e h⟩
  | ok entry? =>
    cases entry? with
    | none => exact ⟨_, findSubstitutions_of_none store _ _ h⟩
    | some entry => exact ⟨_, findSubstitutions_of_entry store _ _ entry h⟩

/-- C17: `findSubstitutions` asks the store only for the lower-cased name: it
gives the same result on two stores that agree on that key, and on two names
with the same lower-cased form; so `'MILK'` and `'milk'` give identical
results on every store. -/
theorem findSubstitutions_case_insensitive (store : SubstitutionStore)
    (dietaryRestrictions : List String) :
    (∀ (other : SubstitutionStore) (name : String),
      other (toLowerCase name) = store (toLowerCase name) →
      findSubstitutions other name dietaryRestrictions =
        findSubstitutions store name dietaryRestrictions) ∧
      (∀ name₁ name₂ : String, toLowerCase name₁ = toLowerCase name₂ →
        findSubstitutions store name₁ dietaryRestrictions =
          findSubstitutions store name₂ dietaryRestrictions) ∧
      findSubstitutions store "MILK" [] = findSubstitutions store "milk" [] := by
  have hnames : ∀ name₁ name₂ : String, toLowerCase name₁ = toLowerCase name₂ →
      ∀ restrictions : List String,
      findSubstitutions store name₁ restrictions =
        findSubstitutions store name₂ restrictions := by
    intro name₁ name₂ h restrictions
    simp only [findSubstitutions, h]
  refine ⟨?_, fun name₁ name₂ h => hnames name₁ name₂ h dietaryRestrictions,
    hnames "MILK" "milk" (by decide) []⟩
  intro other name h
  simp only [findSubstitutions, h]

/-- Witness for C17: on the table with the entry `milk`, `'MILK'` finds what
`'milk'` finds, both substitutes. -/
theorem findSubstitutions_case_insensitive_witness :
    findSubstitutions (tableStore milkTable) "MILK" [] =
        findSubstitutions (tableStore milkTable) "milk" [] ∧
      findSubstitutions (tableStore milkTable) "milk" [] =
        Except.ok [⟨almondMilk, 1⟩, ⟨goatMilk, 1⟩] :=
  ⟨(findSubstitutions_case_insensitive (tableStore milkTable) []).2.1 "MILK" "milk"
    (by decide), by decide⟩

/-- C18: when the store holds an entry under the lower-cased name,
`findSubstitutions` returns, in the entry's order, all its substitutes if
`dietaryRestrictions` is empty and otherwise those whose `dietaryBenefits`
contain some element of `dietaryRestrictions`, each unchanged and with
`adjustedAmount` its ratio; with the restrictions `['vegan']` every returned
substitute lists `vegan`. -/
theorem findSubstitutions_found (store : SubstitutionStore) (ingredientName : String)
    (dietaryRestrictions : List String) (entry : SubstitutionEntry)
    (h : store (toLowerCase ingredientName) = Except.ok (some entry)) :
    findSubstitutions store ingredientName dietaryRestrictions =
        Except.ok ((entry.substitutes.filter fun sub =>
          decide (dietaryRestrictions = [] ∨
            ∃ tag ∈ dietaryRestrictions, tag ∈ sub.dietaryBenefits)).map fun sub =>
              { substitute := sub, adjustedAmount := sub.ratio }) ∧
      findSubstitutions store ingredientName [] =
        Except.ok (entry.substitutes.map fun sub =>
          { substitute := sub, adjustedAmount := sub.ratio }) ∧
      ∃ found, findSubstitutions store ingredientName ["vegan"] = Except.ok found ∧
        ∀ f ∈ found, "vegan" ∈ f.substitute.dietaryBenefits := by
  have key : ∀ restrictions : List String,
      findSubstitutions store ingredientName restrictions =
        Except.ok ((entry.substitutes.filter fun sub =>
          decide (restrictions = [] ∨
            ∃ tag ∈ restrictions, tag ∈ sub.dietaryBenefits)).map fun sub =>
              { substitute := sub, adjustedAmount := sub.ratio }) := by
    intro restrictions
    rw [findSubstitutions_of_entry store ingredientName restrictions entry h]
    congr 2
    apply List.filter_congr
    intro sub _
    cases restrictions with
    | nil => simp
    | cons r rs =>
      rw [Bool.eq_iff_iff]
      simp [List.any_eq_true]
  refine ⟨key dietaryRestrictions, ?_, _, key ["vegan"], ?_⟩
  · rw [key []]
    simp
  · intro f hf
    obtain ⟨sub, hsub, rfl⟩ := List.mem_map.1 hf
    simpa using (List.mem_filter.1 hsub).2

/-- Witness for C18: `'MILK'` with the restrictions `['vegan']` on the table
with the entry `milk` returns `almond milk` alone. -/
theorem findSubstitutions_found_witness :
    findSubstitutions (tableStore milkTable) "MILK" ["vegan"] =
      Except.ok [{ substitute := almondMilk, adjustedAmount := 1 }] :=
  (findSubstitutions_found (tableStore milkTable) "MILK" ["vegan"]
    { originalIngredient := "milk", substitutes := [almondMilk, goatMilk] }
    (by decide)).1.trans (by decide)

/-- C19: `findSubstitutions` always returns a list and never raises; the list
is empty when the store holds no entry under the lower-cased name and when the
lookup fails. -/
theorem findSubstitutions_never_throws (store : SubstitutionStore) (ingredientName : String)
    (dietaryRestrictions : List String) :
    (∃ found, findSubstitutions store ingredientName dietaryRestrictions = Except.ok found) ∧
      (store (toLowerCase ingredientName) = Except.ok none →
        findSubstitutions store ingredientName dietaryRestrictions = Except.ok []) ∧
      ∀ e : JsError, store (toLowerCase ingredientName) = Except.error e →
        findSubstitutions store ingredientName dietaryRestrictions = Except.ok [] :=
  ⟨findSubstitutions_ok store ingredientName dietaryRestrictions,
    findSubstitutions_of_none store ingredientName dietaryRestrictions,
    fun e => findSubstitutions_of_error store ingredientName dietaryRestrictions e⟩

/-- Witness for C19: no entry for `eggs` in the table, and a store whose lookup
fails. -/
theorem findSubstitutions_never_throws_witness :
    findSubstitutions (tableStore milkTable) "eggs" ["vegan"] = Except.ok [] ∧
      findSubstitutions failingStore "milk" ["vegan"] = Except.ok [] :=
  ⟨(findSubstitutions_never_throws (tableStore milkTable) "eggs" ["vegan"]).2.1 (by decide),
    (findSubstitutions_never_throws failingStore "milk" ["vegan"]).2.2
      JsError.storageError rfl⟩

/-! ## The recipe-substitution composer -/

theorem bind_ok_eq {α β : Type} (x : α) (k : α → Except JsError β) :
    (Except.ok x >>= k) = k x := rfl

theorem suggestions_foldlM (store : SubstitutionStore) (dietaryRestrictions : List String)
    (missing : List Ingredient) (acc : List SubstitutionSuggestion) :
    missing.foldlM (fun substitutionSuggestions missingIngredient => do
        let substitutes ← findSubstitutions store missingIngredient.name dietaryRestrictions
        if substitutes.length > 0 then
          pure (substitutionSuggestions ++ [
            { originalIngredient := missingIngredient
              substitutes := substitutes.map fun sub =>
                { substitute := sub.substitute
                  adjustedAmount := missingIngredient.amount * sub.substitute.ratio
                  adjustedUnit := missingIngredient.unit } }])
        else pure substitutionSuggestions) acc =
      Except.ok (acc ++ missing.filterMap fun m =>
        match findSubstitutions store m.name dietaryRestrictions with
        | Except.ok substitutes =>
          if substitutes = [] then none
          else some
            { originalIngredient := m
              substitutes := substitutes.map fun sub =>
                { substitute := sub.substitute
                  adjustedAmount := m.amount * sub.substitute.ratio
                  adjustedUnit := m.unit } }
        | Except.error _ => none) := by
  induction missing generalizing acc with
  | nil => simp [pure, Except.pure]
  | cons m rest ih =>
    obtain ⟨found, hfound⟩ := findSubstitutions_ok store m.name dietaryRestrictions
    rw [List.foldlM_cons]
    cases found with
    | nil =>
      have hneg : ¬ ([] : List FoundSubstitute).length > 0 := by simp
      simp only [hfound, bind_ok_eq, if_neg hneg, pure_bind]
      rw [ih]
      simp only [List.filterMap_cons, hfound, if_true]
    | cons f fs =>
      have hpos : (f :: fs).length > 0 := by simp
      simp only [hfound, bind_ok_eq, if_pos hpos, pure_bind]
      rw [ih]
      simp only [List.filterMap_cons, hfound, if_false, List.append_assoc,
        List.singleton_append, reduceCtorEq]

/-- C20: when `findMissingIngredients` returns `missing`,
`calculateRecipeWithSubstitutions` returns, in the order of `missing`, one
record for each missing ingredient whose `findSubstitutions` result is
non-empty and none for the others; the record's `originalIngredient` is the
missing ingredient, and each of its substitutes has
`adjustedAmount = missing.amount * substitute.ratio` and
`adjustedUnit = missing.unit`. -/
theorem calculateRecipeWithSubstitutions_spec (store : SubstitutionStore) (recipe : Recipe)
    (availableIngredients : Option (List String)) (dietaryRestrictions : List String)
    (missing : List Ingredient)
    (hmissing : findMissingIngredients recipe.ingredients availableIngredients =
      Except.ok missing) :
    calculateRecipeWithSubstitutions store recipe availableIngredients dietaryRestrictions =
      Except.ok (missing.filterMap fun m =>
        match findSubstitutions store m.name dietaryRestrictions with
        | Except.ok substitutes =>
          if substitutes = [] then none
          else some
            { originalIngredient := m
              substitutes := substitutes.map fun sub =>
                { substitute := sub.substitute
                  adjustedAmount := m.amount * sub.substitute.ratio
                  adjustedUnit := m.unit } }
        | Except.error _ => none) := by
  have h := suggestions_foldlM store dietaryRestrictions missing []
  rw [List.nil_append] at h
  simp only [calculateRecipeWithSubstitutions, hmissing, bind, Except.bind]
  exact h

/-- Witness for C20: the recipe misses 1.5 cups of milk; the entry `milk`
offers `almond milk` (ratio 1, vegan); with the restrictions `['vegan']` there
is one suggestion, with `adjustedAmount` 1.5 and `adjustedUnit` `cups`. -/
theorem calculateRecipeWithSubstitutions_spec_witness :
    calculateRecipeWithSubstitutions (tableStore milkTable) batterRecipe (some ["flour"])
        ["vegan"] =
      Except.ok [
        { originalIngredient := milkCupAndHalf
          substitutes :=
            [{ substitute := almondMilk, adjustedAmount := 3 / 2, adjustedUnit := "cups" }] }] :=
  (calculateRecipeWithSubstitutions_spec (tableStore milkTable) batterRecipe (some ["flour"])
    ["vegan"] [milkCupAndHalf] (by decide!)).trans (by decide!)

/-! ## Matching and scoring together -/

theorem calculateIngredientMatch_nonempty (ingredients : List Ingredient)
    (available : List String) (ha : available ≠ []) (hi : ingredients ≠ []) :
    calculateIngredientMatch ingredients (some available) =
      JsNum.num (((ingredients.filter fun ingredient =>
        available.any (nameMatches ingredient) || ingredient.isOptional).length : ℕ) /
        (ingredients.length : ℕ)) := by
  have hlen : (ingredients.length : ℚ) ≠ 0 := by simpa using hi
  cases available with
  | nil => exact absurd rfl ha
  | cons a as => simp only [calculateIngredientMatch, JsNum.div, if_neg hlen]

theorem matched_add_missing (ingredients : List Ingredient) (available : List String) :
    (ingredients.filter fun ingredient =>
        available.any (nameMatches ingredient) || ingredient.isOptional).length +
      (ingredients.filter fun ingredient =>
        !available.any (nameMatches ingredient) && !ingredient.isOptional).length =
      ingredients.length := by
  rw [List.length_eq_length_filter_add (fun ingredient : Ingredient =>
    available.any (nameMatches ingredient) || ingredient.isOptional) (l := ingredients)]
  congr 2
  apply List.filter_congr
  intro i _
  simp [Bool.not_or]

theorem calculateCostEfficiency_num (recipeCost : Option ℚ)
    (budgetConstraints : Option BudgetConstraints) :
    ∃ c : ℚ, calculateCostEfficiency recipeCost budgetConstraints = JsNum.num c := by
  match budgetConstraints with
  | none => exact ⟨_, rfl⟩
  | some budget =>
    rcases hb : budget.maxCostPerServing with _ | limit
    · exact ⟨1 / 2, by simp [calculateCostEfficiency, hb, toNumber, JsNum.truthy]⟩
    · by_cases hl : limit = 0
      · exact ⟨1 / 2, by simp [calculateCostEfficiency, hb, toNumber, JsNum.truthy, hl]⟩
      · rcases recipeCost with _ | cost
        · exact ⟨0, by simp [calculateCostEfficiency, hb, toNumber, JsNum.truthy, hl, JsNum.le]⟩
        · by_cases hle : cost ≤ limit
          · exact ⟨1 - cost / limit, by simp [calculateCostEfficiency, hb, toNumber,
              JsNum.truthy, hl, JsNum.le, hle, JsNum.sub, JsNum.div]⟩
          · exact ⟨0, by simp [calculateCostEfficiency, hb, toNumber, JsNum.truthy, hl,
              JsNum.le, hle]⟩

theorem calculateIngredientMatch_mono (ingredients : List Ingredient)
    (availableA availableB : List String) (hi : ingredients ≠ [])
    (hsub : ∀ e ∈ availableA, e ∈ availableB) :
    ∃ mA mB : ℚ, calculateIngredientMatch ingredients (some availableA) = JsNum.num mA ∧
      calculateIngredientMatch ingredients (some availableB) = JsNum.num mB ∧ mA ≤ mB := by
  have hpos : (0 : ℚ) < (ingredients.length : ℕ) := by
    have : 0 < ingredients.length := List.length_pos.2 hi
    exact_mod_cast this
  by_cases hB : availableB = []
  · subst hB
    have hA : availableA = [] := by
      cases availableA with
      | nil => rfl
      | cons a as => exact absurd (hsub a (List.mem_cons_self a as)) (List.not_mem_nil a)
    subst hA
    exact ⟨0, 0, rfl, rfl, le_refl _⟩
  · by_cases hA : availableA = []
    · subst hA
      refine ⟨0, _, rfl, calculateIngredientMatch_nonempty ingredients availableB hB hi, ?_⟩
      positivity
    · refine ⟨_, _, calculateIngredientMatch_nonempty ingredients availableA hA hi,
        calculateIngredientMatch_nonempty ingredients availableB hB hi, ?_⟩
      apply div_le_div_of_nonneg_right _ hpos.le
      rw [← List.countP_eq_length_filter, ← List.countP_eq_length_filter]
      have := List.countP_mono_left (l := ingredients)
        (p := fun ingredient => availableA.any (nameMatches ingredient) || ingredient.isOptional)
        (q := fun ingredient => availableB.any (nameMatches ingredient) || ingredient.isOptional)
        (by
          intro i _ h
          simp only [Bool.or_eq_true, List.any_eq_true] at h ⊢
          rcases h with ⟨e, he, hm⟩ | h
          · exact Or.inl ⟨e, hsub e he, hm⟩
          · exact Or.inr h)
      exact_mod_cast this

theorem scoreRecipe_some (userPreferences : UserPreferences) (available : List String)
    (recipe : Recipe) (score : JsNum)
    (h : calculateRecipeScore recipe userPreferences (some available) = Except.ok score) :
    scoreRecipe userPreferences (some available) recipe =
      Except.ok
        { recipe := recipe
          optimizationScore := score
          missingIngredients := recipe.ingredients.filter fun ingredient =>
            !available.any (nameMatches ingredient) && !ingredient.isOptional
          ingredientMatchPercentage := JsNum.round (JsNum.mul
            (JsNum.div
              (JsNum.sub (JsNum.num recipe.ingredients.length)
                (JsNum.num (recipe.ingredients.filter fun ingredient =>
                  !available.any (nameMatches ingredient) && !ingredient.isOptional).length))
              (JsNum.num recipe.ingredients.length))
            (JsNum.num 100)) } := by
  simp only [scoreRecipe, h, findMissingIngredients_some, bind, Except.bind, pure, Except.pure]

theorem matchRecipe_some (available : List String) (recipe : Recipe) :
    matchRecipe (some available) recipe =
      Except.ok
        { recipe := recipe
          ingredientMatchPercentage := JsNum.round (JsNum.mul
            (JsNum.div
              (JsNum.sub (JsNum.num recipe.ingredients.length)
                (JsNum.num (recipe.ingredients.filter fun ingredient =>
                  !available.any (nameMatches ingredient) && !ingredient.isOptional).length))
              (JsNum.num recipe.ingredients.length))
            (JsNum.num 100))
          missingIngredients := recipe.ingredients.filter fun ingredient =>
            !available.any (nameMatches ingredient) && !ingredient.isOptional } := by
  simp only [matchRecipe, findMissingIngredients_some, bind, Except.bind, pure, Except.pure]

theorem percentage_num (total missingCount : ℕ) (htotal : total ≠ 0)
    (hle : missingCount ≤ total) :
    ∃ k : ℤ,
      JsNum.round (JsNum.mul
        (JsNum.div (JsNum.sub (JsNum.num total) (JsNum.num missingCount)) (JsNum.num total))
        (JsNum.num 100)) = JsNum.num k ∧
      0 ≤ k ∧ k ≤ 100 := by
  have ht : (total : ℚ) ≠ 0 := by exact_mod_cast htotal
  have htpos : (0 : ℚ) < total := by
    have : 0 < total := Nat.pos_of_ne_zero htotal
    exact_mod_cast this
  have hm : (missingCount : ℚ) ≤ total := by exact_mod_cast hle
  have hm0 : (0 : ℚ) ≤ missingCount := by positivity
  have h0 : 0 ≤ ((total : ℚ) - missingCount) / total * 100 := by
    apply mul_nonneg (div_nonneg (by linarith) htpos.le) (by norm_num)
  have h1 : ((total : ℚ) - missingCount) / total * 100 ≤ 100 := by
    have : ((total : ℚ) - missingCount) / total ≤ 1 := by
      rw [div_le_one htpos]
      linarith
    linarith
  refine ⟨⌊((total : ℚ) - missingCount) / total * 100 + 1 / 2⌋, ?_, ?_, ?_⟩
  · simp only [JsNum.sub, JsNum.div, if_neg ht, JsNum.mul, round_num]
  · apply Int.floor_nonneg.2
    linarith
  · have : ⌊((total : ℚ) - missingCount) / total * 100 + 1 / 2⌋ < 101 := by
      apply Int.floor_lt.2
      push_cast
      linarith
    omega

theorem toLowerCase_empty : toLowerCase "" = "" := rfl

theorem nameMatches_empty_entry (i : Ingredient) : nameMatches i "" = true := by
  rw [nameMatches_iff]
  exact Or.inr (by rw [toLowerCase_empty]; exact List.nil_infix)

theorem nameMatches_empty_name (i : Ingredient) (e : String) (h : i.name = "") :
    nameMatches i e = true := by
  rw [nameMatches_iff, h]
  exact Or.inl (by rw [toLowerCase_empty]; exact List.nil_infix)

/-- C24: for a recipe with at least one ingredient and preferences under which
the nutrition sub-score is a number (the other sub-scores always are), if
every entry of the available list `A` occurs in the available list `B`, then
the score with `A` is `<=` the score with `B`. -/
theorem calculateRecipeScore_mono_available (recipe : Recipe)
    (userPreferences : UserPreferences) (availableA availableB : List String) (n : ℚ)
    (hi : recipe.ingredients ≠ [])
    (hn : calculateNutritionalAlignment recipe.nutrition userPreferences.nutritionalGoals =
      Except.ok (JsNum.num n))
    (hsub : ∀ e ∈ availableA, e ∈ availableB) :
    ∃ sA sB : ℤ,
      calculateRecipeScore recipe userPreferences (some availableA) = Except.ok (JsNum.num sA) ∧
      calculateRecipeScore recipe userPreferences (some availableB) = Except.ok (JsNum.num sB) ∧
      sA ≤ sB := by
  obtain ⟨mA, mB, hA, hB, hle⟩ :=
    calculateIngredientMatch_mono recipe.ingredients availableA availableB hi hsub
  obtain ⟨c, hc⟩ := calculateCostEfficiency_num recipe.estimatedCost
    userPreferences.budgetConstraints
  have key : ∀ d : ℚ,
      checkDietaryCompliance recipe.dietaryTags userPreferences.dietaryRestrictions =
        JsNum.num d →
      ∃ sA sB : ℤ,
        calculateRecipeScore recipe userPreferences (some availableA) =
          Except.ok (JsNum.num sA) ∧
        calculateRecipeScore recipe userPreferences (some availableB) =
          Except.ok (JsNum.num sB) ∧
        sA ≤ sB := by
    intro d hd
    refine ⟨_, _,
      calculateRecipeScore_of_subscores recipe userPreferences _ mA d n c hA hd hn hc,
      calculateRecipeScore_of_subscores recipe userPreferences _ mB d n c hB hd hn hc, ?_⟩
    apply Int.floor_mono
    linarith
  rcases checkDietaryCompliance_cases recipe.dietaryTags userPreferences.dietaryRestrictions
    with hd | hd
  · exact key 1 hd
  · exact key 0 hd

/-- Witness for C24: `[flour, milk, eggs, butter]`, all required, scores 71 with
`['flour', 'milk']` and 91 with all four available. -/
theorem calculateRecipeScore_mono_available_witness :
    (∃ sA sB : ℤ,
      calculateRecipeScore cakeRecipe vegetarianPreferences (some ["flour", "milk"]) =
        Except.ok (JsNum.num sA) ∧
      calculateRecipeScore cakeRecipe vegetarianPreferences
        (some ["flour", "milk", "eggs", "butter"]) = Except.ok (JsNum.num sB) ∧
      sA ≤ sB) ∧
      calculateRecipeScore cakeRecipe vegetarianPreferences (some ["flour", "milk"]) =
        Except.ok (JsNum.num 71) ∧
      calculateRecipeScore cakeRecipe vegetarianPreferences
        (some ["flour", "milk", "eggs", "butter"]) = Except.ok (JsNum.num 91) :=
  ⟨calculateRecipeScore_mono_available cakeRecipe vegetarianPreferences ["flour", "milk"]
    ["flour", "milk", "eggs", "butter"] 1 (by decide) (by decide!) (by decide),
    by decide!, by decide!⟩

/-- C25: for a recipe with at least one ingredient, each optional or matched by
the non-empty available list, whose tags contain every restriction, whose
calories and protein equal the positive targets, and whose cost `c` satisfies
`0 ≤ c ≤ max` for a positive limit, `calculateRecipeScore` returns
`Math.round(85 + (1 - c / max) * 15)`, which is an integer, at least 85 and so
more than 80. -/
theorem calculateRecipeScore_full_match (recipe : Recipe) (userPreferences : UserPreferences)
    (available : List String) (nutrition : Nutrition) (goals : NutritionalGoals)
    (budget : BudgetConstraints) (targetCalories targetProtein limit cost : ℚ)
    (hi : recipe.ingredients ≠ []) (ha : available ≠ [])
    (hall : ∀ i ∈ recipe.ingredients, i.isOptional = true ∨
      ∃ e ∈ available, (toLowerCase i.name).data <:+: (toLowerCase e).data ∨
        (toLowerCase e).data <:+: (toLowerCase i.name).data)
    (htags : ∀ rs, userPreferences.dietaryRestrictions = some rs →
      ∀ r ∈ rs, r ∈ recipe.dietaryTags)
    (hnutrition : recipe.nutrition = some nutrition)
    (hgoals : userPreferences.nutritionalGoals = some goals)
    (htc : goals.targetCalories = some targetCalories) (htc0 : 0 < targetCalories)
    (htp : goals.targetProtein = some targetProtein) (htp0 : 0 < targetProtein)
    (hcal : nutrition.calories = some targetCalories)
    (hprot : nutrition.protein = some targetProtein)
    (hbudget : userPreferences.budgetConstraints = some budget)
    (hlimit : budget.maxCostPerServing = some limit) (hlimit0 : 0 < limit)
    (hcost : recipe.estimatedCost = some cost) (hcost0 : 0 ≤ cost) (hle : cost ≤ limit) :
    calculateRecipeScore recipe userPreferences (some available) =
        Except.ok (JsNum.round (JsNum.add (JsNum.num 85)
          (JsNum.mul (JsNum.sub (JsNum.num 1) (JsNum.div (JsNum.num cost) (JsNum.num limit)))
            (JsNum.num 15)))) ∧
      ∃ s : ℤ, calculateRecipeScore recipe userPreferences (some available) =
        Except.ok (JsNum.num s) ∧ 85 ≤ s ∧ 80 < s := by
  have hm : calculateIngredientMatch recipe.ingredients (some available) = JsNum.num 1 := by
    rw [calculateIngredientMatch_nonempty recipe.ingredients available ha hi]
    have hfilter : (recipe.ingredients.filter fun ingredient =>
        available.any (nameMatches ingredient) || ingredient.isOptional) =
        recipe.ingredients := by
      rw [List.filter_eq_self]
      intro i hmem
      rcases hall i hmem with h | h
      · simp [h]
      · simp [(any_nameMatches_iff i available).2 h]
    rw [hfilter, div_self]
    simpa using hi
  have hd : checkDietaryCompliance recipe.dietaryTags userPreferences.dietaryRestrictions =
      JsNum.num 1 := by
    match hr : userPreferences.dietaryRestrictions with
    | none => rfl
    | some rs => rw [checkDietaryCompliance_some, if_pos (htags rs hr)]
  have hn : calculateNutritionalAlignment recipe.nutrition userPreferences.nutritionalGoals =
      Except.ok (JsNum.num 1) := by
    rw [hnutrition, hgoals]
    simp only [calculateNutritionalAlignment, htc, htp, toNumber,
      truthy_num targetCalories htc0.ne', truthy_num targetProtein htp0.ne', nutritionField,
      hcal, hprot, factor_num targetCalories targetCalories htc0.ne',
      factor_num targetProtein targetProtein htp0.ne', bind, Except.bind, pure, Except.pure,
      JsNum.add, zero_add]
    norm_num [JsNum.div]
  have hc : calculateCostEfficiency recipe.estimatedCost userPreferences.budgetConstraints =
      JsNum.num (1 - cost / limit) := by
    rw [hcost, hbudget]
    simp [calculateCostEfficiency, hlimit, toNumber, JsNum.truthy, hlimit0.ne', JsNum.le, hle,
      JsNum.sub, JsNum.div]
  have hfrac0 : 0 ≤ cost / limit := div_nonneg hcost0 hlimit0.le
  have hfrac1 : cost / limit ≤ 1 := (div_le_one hlimit0).2 hle
  have hscore := calculateRecipeScore_of_subscores recipe userPreferences (some available)
    1 1 1 (1 - cost / limit) hm hd hn hc
  have heq : (1 : ℚ) * 40 + 1 * 25 + 1 * 20 + (1 - cost / limit) * 15 + 1 / 2 =
      85 + (1 - cost / limit) * 15 + 1 / 2 := by ring
  rw [heq] at hscore
  have h85 : (85 : ℤ) ≤ ⌊85 + (1 - cost / limit) * 15 + 1 / 2⌋ := by
    apply Int.le_floor.2
    push_cast
    linarith
  refine ⟨?_, _, hscore, h85, by omega⟩
  simpa only [JsNum.div, if_neg hlimit0.ne', JsNum.sub, JsNum.mul, JsNum.add, round_num]
    using hscore

/-- Witness for C25: the fully matching test recipe, cost 3 against the limit
5, scores `Math.round(85 + (1 - 3/5) * 15) = 91`. -/
theorem calculateRecipeScore_full_match_witness :
    calculateRecipeScore pancakeRecipe vegetarianPreferences (some ["flour", "milk"]) =
        Except.ok (JsNum.round (JsNum.add (JsNum.num 85)
          (JsNum.mul (JsNum.sub (JsNum.num 1) (JsNum.div (JsNum.num 3) (JsNum.num 5)))
            (JsNum.num 15)))) ∧
      ∃ s : ℤ, calculateRecipeScore pancakeRecipe vegetarianPreferences
        (some ["flour", "milk"]) = Except.ok (JsNum.num s) ∧ 85 ≤ s ∧ 80 < s :=
  calculateRecipeScore_full_match pancakeRecipe vegetarianPreferences ["flour", "milk"]
    { calories := some 400, protein := some 10, carbs := some 50, fat := some 15 }
    { targetCalories := some 400, targetProtein := some 10 } { maxCostPerServing := some 5 }
    400 10 5 3 (by decide) (by decide)
    (by
      intro i hmem
      simp only [pancakeRecipe, List.mem_cons, List.mem_singleton, List.not_mem_nil,
        or_false] at hmem
      rcases hmem with rfl | rfl
      · exact Or.inr ⟨"flour", by decide, by decide⟩
      · exact Or.inr ⟨"milk", by decide, by decide⟩)
    (by
      intro rs hrs
      cases hrs
      decide)
    rfl rfl rfl (by norm_num) rfl (by norm_num) rfl rfl rfl rfl (by norm_num) rfl
    (by norm_num) (by norm_num)

/-- C23: for a recipe with at least one ingredient and any list of available
names, the `ingredientMatchPercentage` the handlers attach (in `POST /recipes`
to every recipe that is scored, in `POST /match-ingredients` to every recipe)
is `Math.round((total - missingCount) / total * 100)`, `missingCount` being the
length of the result of `findMissingIngredients`, and is an integer between 0
and 100. -/
theorem ingredientMatchPercentage_spec (recipe : Recipe) (available : List String)
    (hi : recipe.ingredients ≠ []) :
    ∃ (matched : MatchedRecipe) (missing : List Ingredient) (k : ℤ),
      matchRecipe (some available) recipe = Except.ok matched ∧
      findMissingIngredients recipe.ingredients (some available) = Except.ok missing ∧
      matched.ingredientMatchPercentage =
        JsNum.round (JsNum.mul
          (JsNum.div
            (JsNum.sub (JsNum.num recipe.ingredients.length) (JsNum.num missing.length))
            (JsNum.num recipe.ingredients.length))
          (JsNum.num 100)) ∧
      matched.ingredientMatchPercentage = JsNum.num k ∧
      0 ≤ k ∧ k ≤ 100 ∧
      ∀ (userPreferences : UserPreferences) (scored : ScoredRecipe),
        scoreRecipe userPreferences (some available) recipe = Except.ok scored →
        scored.ingredientMatchPercentage = matched.ingredientMatchPercentage := by
  obtain ⟨k, hk, h0, h100⟩ := percentage_num recipe.ingredients.length
    (recipe.ingredients.filter fun ingredient =>
      !available.any (nameMatches ingredient) && !ingredient.isOptional).length
    (by simpa using hi) (List.length_filter_le _ _)
  refine ⟨_, _, k, matchRecipe_some available recipe,
    findMissingIngredients_some recipe.ingredients available, rfl, hk, h0, h100, ?_⟩
  intro userPreferences scored hscored
  obtain ⟨_, hs⟩ := scoreRecipe_inv userPreferences (some available) recipe scored hscored
  rw [scoreRecipe_some userPreferences available recipe _ hs] at hscored
  rw [← Except.ok.inj hscored]

/-- Witness for C23: `[flour, milk, vanilla (optional)]` with `['flour']`
available gives 67 in both handlers. -/
theorem ingredientMatchPercentage_spec_witness :
    (∃ matched : MatchedRecipe,
      matchRecipe (some ["flour"]) vanillaRecipe = Except.ok matched ∧
      matched.ingredientMatchPercentage = JsNum.num 67) ∧
      ∃ scored : ScoredRecipe,
        scoreRecipe {} (some ["flour"]) vanillaRecipe = Except.ok scored ∧
        scored.ingredientMatchPercentage = JsNum.num 67 := by
  obtain ⟨matched, _, _, hm, _, _, _, _, _, hscored⟩ :=
    ingredientMatchPercentage_spec vanillaRecipe ["flour"] (by decide)
  have hm' : matchRecipe (some ["flour"]) vanillaRecipe =
      Except.ok ⟨vanillaRecipe, JsNum.num 67, [milk]⟩ := by decide!
  have hs' : scoreRecipe {} (some ["flour"]) vanillaRecipe =
      Except.ok ⟨vanillaRecipe, JsNum.num 69, [milk], JsNum.num 67⟩ := by decide!
  have h67 : matched.ingredientMatchPercentage = JsNum.num 67 := by
    rw [hm'] at hm
    rw [← Except.ok.inj hm]
  refine ⟨⟨matched, hm, h67⟩, _, hs', ?_⟩
  rw [hscored {} _ hs', h67]

/-- C26: with the empty available list `calculateIngredientMatch` is 0 and
`findMissingIngredients` returns the non-optional ingredients, for every
recipe; so for a scored recipe with at least one ingredient, all of them
optional, `ingredientMatchPercentage` is 100 while the ingredient-match
sub-score contributes `0 * 40 = 0` points. -/
theorem empty_available_policies (recipe : Recipe) :
    calculateIngredientMatch recipe.ingredients (some []) = JsNum.num 0 ∧
      findMissingIngredients recipe.ingredients (some []) =
        Except.ok (recipe.ingredients.filter fun i => !i.isOptional) ∧
      ∀ (userPreferences : UserPreferences) (score : JsNum),
        recipe.ingredients ≠ [] → (∀ i ∈ recipe.ingredients, i.isOptional = true) →
        calculateRecipeScore recipe userPreferences (some []) = Except.ok score →
        ∃ scored : ScoredRecipe,
          scoreRecipe userPreferences (some []) recipe = Except.ok scored ∧
          scored.missingIngredients = [] ∧
          scored.ingredientMatchPercentage = JsNum.num 100 ∧
          JsNum.mul (calculateIngredientMatch recipe.ingredients (some [])) (JsNum.num 40) =
            JsNum.num 0 := by
  refine ⟨rfl, ?_, ?_⟩
  · rw [findMissingIngredients_some]
    simp
  · intro userPreferences score hi hall hscore
    have hmissing : (recipe.ingredients.filter fun ingredient =>
        !([] : List String).any (nameMatches ingredient) && !ingredient.isOptional) = [] := by
      rw [List.filter_eq_nil_iff]
      intro i hmem
      simp [hall i hmem]
    have hlen : (recipe.ingredients.length : ℚ) ≠ 0 := by simpa using hi
    refine ⟨_, scoreRecipe_some userPreferences [] recipe score hscore, hmissing, ?_, ?_⟩
    · simp only [hmissing, List.length_nil, JsNum.sub, JsNum.div, if_neg hlen, JsNum.mul,
        round_num, Nat.cast_zero, sub_zero, div_self hlen]
      norm_num
    · simp [calculateIngredientMatch, JsNum.mul]

/-- Witness for C26: a recipe whose only ingredient is the optional vanilla,
with nothing available: percentage 100, match ratio 0. -/
theorem empty_available_policies_witness :
    ∃ scored : ScoredRecipe,
      scoreRecipe {} (some []) garnishRecipe = Except.ok scored ∧
      scored.missingIngredients = [] ∧
      scored.ingredientMatchPercentage = JsNum.num 100 ∧
      JsNum.mul (calculateIngredientMatch garnishRecipe.ingredients (some [])) (JsNum.num 40) =
        JsNum.num 0 :=
  (empty_available_policies garnishRecipe).2.2 {} (JsNum.num 43) (by decide) (by decide)
    (by decide!)

/-- C27: for a non-empty available list, the predicate `calculateIngredientMatch`
counts is the negation of the filter predicate of `findMissingIngredients`, so
the matched count plus the number of missing ingredients is the total; hence
for a recipe with an ingredient the match ratio is
`(total - missingCount) / total`, and the `ingredientMatchPercentage` of a
scored recipe is `round(100 * calculateIngredientMatch)`. -/
theorem match_ratio_complement (recipe : Recipe) (available : List String)
    (ha : available ≠ []) :
    ∃ missing : List Ingredient,
      findMissingIngredients recipe.ingredients (some available) = Except.ok missing ∧
      (∀ i : Ingredient,
        (available.any (nameMatches i) || i.isOptional) =
          !(!available.any (nameMatches i) && !i.isOptional)) ∧
      (recipe.ingredients.filter fun ingredient =>
        available.any (nameMatches ingredient) || ingredient.isOptional).length +
          missing.length = recipe.ingredients.length ∧
      (recipe.ingredients ≠ [] →
        calculateIngredientMatch recipe.ingredients (some available) =
            JsNum.num (((recipe.ingredients.length : ℚ) - missing.length) /
              recipe.ingredients.length) ∧
          ∀ (userPreferences : UserPreferences) (scored : ScoredRecipe),
            scoreRecipe userPreferences (some available) recipe = Except.ok scored →
            scored.ingredientMatchPercentage =
              JsNum.round (JsNum.mul (JsNum.num 100)
                (calculateIngredientMatch recipe.ingredients (some available)))) := by
  have hsum := matched_add_missing recipe.ingredients available
  refine ⟨_, findMissingIngredients_some recipe.ingredients available, ?_, hsum, ?_⟩
  · intro i
    cases available.any (nameMatches i) <;> cases i.isOptional <;> rfl
  · intro hi
    have hlen : (recipe.ingredients.length : ℚ) ≠ 0 := by simpa using hi
    have hratio : calculateIngredientMatch recipe.ingredients (some available) =
        JsNum.num (((recipe.ingredients.length : ℚ) -
          (recipe.ingredients.filter fun ingredient =>
            !available.any (nameMatches ingredient) && !ingredient.isOptional).length) /
          recipe.ingredients.length) := by
      rw [calculateIngredientMatch_nonempty recipe.ingredients available ha hi]
      congr 2
      have := congrArg (fun n : ℕ => (n : ℚ)) hsum
      simp only [Nat.cast_add] at this
      linarith
    refine ⟨hratio, ?_⟩
    intro userPreferences scored hscored
    obtain ⟨_, hs⟩ := scoreRecipe_inv userPreferences (some available) recipe scored hscored
    rw [scoreRecipe_some userPreferences available recipe _ hs] at hscored
    rw [← Except.ok.inj hscored, hratio]
    simp only [JsNum.sub, JsNum.div, if_neg hlen, JsNum.mul, mul_comm]

/-- Witness for C27: `[flour, milk, vanilla (optional)]` with `['flour']`: two
matched, one missing, ratio 2/3. -/
theorem match_ratio_complement_witness :
    calculateIngredientMatch vanillaRecipe.ingredients (some ["flour"]) =
      JsNum.num (2 / 3) := by
  obtain ⟨missing, hmissing, _, _, h⟩ := match_ratio_complement vanillaRecipe ["flour"]
    (by decide)
  have h' : findMissingIngredients vanillaRecipe.ingredients (some ["flour"]) =
      Except.ok [milk] := by decide
  rw [h'] at hmissing
  rw [(h (by decide)).1, ← Except.ok.inj hmissing]
  decide!

/-- C28: for a negative `targetCalories` `t` and recipe calories `v ≥ 0`, the
calories term of `calculateNutritionalAlignment` is `1 + |v - t| / |t|`, more
than 1, and it is the whole alignment when no protein target is set; so a
score can exceed 100: the three-ingredient recipe with calories 300, only
flour available, `targetCalories` -100 and no restrictions or budget scores
146. -/
theorem negative_target_term (target value : ℚ) (ht : target < 0) (hv : 0 ≤ value) :
    alignmentTerm (some value) target = JsNum.num (1 + |value - target| / |target|) ∧
      1 < 1 + |value - target| / |target| ∧
      (∀ nutrition : Nutrition, nutrition.calories = some value →
        calculateNutritionalAlignment (some nutrition)
            (some { targetCalories := some target }) =
          Except.ok (JsNum.num (1 + |value - target| / |target|))) ∧
      calculateRecipeScore threeIngredientRecipe
          { nutritionalGoals := some { targetCalories := some (-100) } } (some ["flour"]) =
        Except.ok (JsNum.num 146) := by
  have hne : target ≠ 0 := ht.ne
  have habs : |target| = -target := abs_of_neg ht
  have hdiff : 0 < |value - target| := abs_pos.2 (by linarith)
  have hpos : 0 < |value - target| / |target| := div_pos hdiff (abs_pos.2 hne)
  have hterm : Max.max 0 (1 - |value - target| / target) =
      1 + |value - target| / |target| := by
    have : 1 - |value - target| / target = 1 + |value - target| / |target| := by
      rw [habs, div_neg]
      ring
    rw [this]
    exact max_eq_right (by linarith)
  have hfactor : alignmentTerm (some value) target =
      JsNum.num (1 + |value - target| / |target|) := by
    have := factor_num value target hne
    rw [hterm] at this
    exact this
  refine ⟨hfactor, by linarith, ?_, by decide!⟩
  intro nutrition hcal
  rw [calculateNutritionalAlignment_eq_spec]
  simp [nutritionalAlignmentSpec, hne, hcal, hfactor, JsNum.add, JsNum.div]

/-- Witness for C28: target -100 and calories 300 give the term 5. -/
theorem negative_target_term_witness :
    alignmentTerm (some 300) (-100) = JsNum.num 5 := by
  have h := (negative_target_term (-100) 300 (by norm_num) (by norm_num)).1
  rw [h]
  norm_num [abs_of_pos]

/-- C29: for an absent `estimatedCost` and a budget with a non-zero
`maxCostPerServing`, `calculateCostEfficiency` returns 0, as it does for a cost
above the limit; its contribution is `0 * 15 = 0` points, against
`0.5 * 15 = 7.5` when no budget is set. -/
theorem calculateCostEfficiency_absent_cost (budget : BudgetConstraints) (limit : ℚ)
    (hb : budget.maxCostPerServing = some limit) (hl : limit ≠ 0) :
    calculateCostEfficiency none (some budget) = JsNum.num 0 ∧
      (∀ cost : ℚ, limit < cost →
        calculateCostEfficiency (some cost) (some budget) =
          calculateCostEfficiency none (some budget)) ∧
      JsNum.mul (calculateCostEfficiency none (some budget)) (JsNum.num 15) = JsNum.num 0 ∧
      JsNum.mul (calculateCostEfficiency none none) (JsNum.num 15) = JsNum.num (15 / 2) := by
  have h0 : calculateCostEfficiency none (some budget) = JsNum.num 0 := by
    simp [calculateCostEfficiency, hb, toNumber, JsNum.truthy, hl, JsNum.le]
  refine ⟨h0, ?_, ?_, ?_⟩
  · intro cost hc
    rw [h0]
    simp [calculateCostEfficiency, hb, toNumber, JsNum.truthy, hl, JsNum.le, not_le.2 hc]
  · rw [h0]
    simp [JsNum.mul]
  · simp only [calculateCostEfficiency, JsNum.mul]
    norm_num

/-- Witness for C29: the recipe without a cost scores 75 under the limit 5 and
83 without a budget. -/
theorem calculateCostEfficiency_absent_cost_witness :
    calculateCostEfficiency plainRecipe.estimatedCost
        (some { maxCostPerServing := some 5 }) = JsNum.num 0 ∧
      calculateRecipeScore plainRecipe
        { budgetConstraints := some { maxCostPerServing := some 5 } } (some ["flour"]) =
        Except.ok (JsNum.num 75) ∧
      calculateRecipeScore plainRecipe {} (some ["flour"]) = Except.ok (JsNum.num 83) :=
  ⟨(calculateCostEfficiency_absent_cost { maxCostPerServing := some 5 } 5 rfl
    (by norm_num)).1, by decide!, by decide!⟩

/-- C30: when the available list contains the empty string,
`findMissingIngredients` returns the empty list and, for a non-empty ingredient
list, `calculateIngredientMatch` returns 1; and an ingredient whose name is the
empty string is not in the result of `findMissingIngredients` for any
non-empty available list. -/
theorem empty_string_matches (ingredients : List Ingredient) (available : List String) :
    ("" ∈ available →
      findMissingIngredients ingredients (some available) = Except.ok [] ∧
        (ingredients ≠ [] →
          calculateIngredientMatch ingredients (some available) = JsNum.num 1)) ∧
      (available ≠ [] →
        ∃ missing, findMissingIngredients ingredients (some available) = Except.ok missing ∧
          ∀ i : Ingredient, i.name = "" → i ∉ missing) := by
  constructor
  · intro hmem
    have hany : ∀ i : Ingredient, available.any (nameMatches i) = true := by
      intro i
      rw [List.any_eq_true]
      exact ⟨"", hmem, nameMatches_empty_entry i⟩
    have ha : available ≠ [] := List.ne_nil_of_mem hmem
    constructor
    · rw [findMissingIngredients_some]
      congr 1
      rw [List.filter_eq_nil_iff]
      intro i _
      simp [hany i]
    · intro hi
      rw [calculateIngredientMatch_nonempty ingredients available ha hi]
      have hfilter : (ingredients.filter fun ingredient =>
          available.any (nameMatches ingredient) || ingredient.isOptional) = ingredients := by
        rw [List.filter_eq_self]
        intro i _
        simp [hany i]
      rw [hfilter, div_self]
      simpa using hi
  · intro ha
    refine ⟨_, findMissingIngredients_some ingredients available, ?_⟩
    intro i hname hmem
    obtain ⟨e, he⟩ := List.exists_mem_of_ne_nil available ha
    have hany : available.any (nameMatches i) = true := by
      rw [List.any_eq_true]
      exact ⟨e, he, nameMatches_empty_name i e hname⟩
    have := ((mem_missing_iff ingredients available i).1 hmem).2.1
    rw [hany] at this
    exact Bool.noConfusion this

/-- Witness for C30: with `['']` available nothing of the four-ingredient
recipe is missing and its match ratio is 1. -/
theorem empty_string_matches_witness :
    findMissingIngredients cakeRecipe.ingredients (some [""]) = Except.ok [] ∧
      calculateIngredientMatch cakeRecipe.ingredients (some [""]) = JsNum.num 1 := by
  have h := (empty_string_matches cakeRecipe.ingredients [""]).1 (by decide)
  exact ⟨h.1, h.2 (by decide)⟩

/-! ## The routes `POST /match-ingredients` and `POST /substitutions` -/

theorem matched_of_ingredients (allRecipes : List Recipe) (available : List String)
    (hi : ∀ recipe ∈ allRecipes, recipe.ingredients ≠ []) :
    ∃ mapped : List MatchedRecipe,
      allRecipes.mapM (matchRecipe (some available)) = Except.ok mapped ∧
      List.Forall₂ (fun recipe m => matchRecipe (some available) recipe = Except.ok m)
        allRecipes mapped ∧
      ∀ m ∈ mapped, ∃ q : ℚ, m.ingredientMatchPercentage = JsNum.num q := by
  obtain ⟨mapped, hmap, hrel⟩ := mapM_ok_of_forall (matchRecipe (some available)) allRecipes
    (fun recipe _ => ⟨_, matchRecipe_some available recipe⟩)
  refine ⟨mapped, hmap, hrel, ?_⟩
  intro m hm
  obtain ⟨recipe, hr, hrm⟩ := forall₂_mem_right hrel m hm
  rw [matchRecipe_some] at hrm
  obtain ⟨k, hk, _⟩ := percentage_num recipe.ingredients.length
    (recipe.ingredients.filter fun ingredient =>
      !available.any (nameMatches ingredient) && !ingredient.isOptional).length
    (by simpa using hi recipe hr) (List.length_filter_le _ _)
  rw [← Except.ok.inj hrm]
  exact ⟨k, hk⟩

/-- C22: for fetched recipes that each have an ingredient, a non-empty available
list and a threshold `minMatchPercentage` (50 when absent),
`POST /match-ingredients` answers 200 with a rearrangement of exactly the
records whose `ingredientMatchPercentage` is `>=` the threshold (every returned
record reaches it, every record that reaches it is returned), ordered by
non-increasing `ingredientMatchPercentage`. -/
theorem postMatchIngredients_spec (allRecipes : List Recipe) (body : MatchRequest)
    (available : List String)
    (hi : ∀ recipe ∈ allRecipes, recipe.ingredients ≠ [])
    (hbody : body.availableIngredients = some available) (ha : available ≠ []) :
    ∃ data mapped : List MatchedRecipe,
      postMatchIngredients allRecipes body = Response.ok data ∧
      List.Forall₂ (fun recipe m => matchRecipe (some available) recipe = Except.ok m)
        allRecipes mapped ∧
      data.Perm (mapped.filter fun m =>
        JsNum.ge m.ingredientMatchPercentage (JsNum.num (body.minMatchPercentage.getD 50))) ∧
      (∀ m ∈ data,
        JsNum.ge m.ingredientMatchPercentage (JsNum.num (body.minMatchPercentage.getD 50)) =
          true) ∧
      (∀ m ∈ mapped,
        JsNum.ge m.ingredientMatchPercentage (JsNum.num (body.minMatchPercentage.getD 50)) =
          true → m ∈ data) ∧
      data.Pairwise (fun a b =>
        JsNum.le b.ingredientMatchPercentage a.ingredientMatchPercentage = true) := by
  obtain ⟨mapped, hmap, hrel, hnum⟩ := matched_of_ingredients allRecipes available hi
  have hperm := jsSort_perm
    (fun a b : MatchedRecipe =>
      JsNum.sub b.ingredientMatchPercentage a.ingredientMatchPercentage)
    (mapped.filter fun m =>
      JsNum.ge m.ingredientMatchPercentage (JsNum.num (body.minMatchPercentage.getD 50)))
  have hsorted := jsSort_sorted (fun m : MatchedRecipe => m.ingredientMatchPercentage)
    (mapped.filter fun m =>
      JsNum.ge m.ingredientMatchPercentage (JsNum.num (body.minMatchPercentage.getD 50)))
    (fun m hm => hnum m (List.mem_filter.1 hm).1)
  refine ⟨_, mapped, ?_, hrel, hperm, ?_, ?_, hsorted⟩
  · cases available with
    | nil => exact absurd rfl ha
    | cons a as => simp only [postMatchIngredients, hbody, hmap]
  · intro m hm
    exact (List.mem_filter.1 (hperm.mem_iff.1 hm)).2
  · intro m hm hge
    exact hperm.mem_iff.2 (List.mem_filter.2 ⟨hm, hge⟩)

/-- Witness for C22: with only flour available and the threshold 50, the
recipes at 67 and 50 are returned in that order and the one at 25 is not. -/
theorem postMatchIngredients_spec_witness :
    ∃ data, postMatchIngredients [cakeRecipe, vanillaRecipe, pancakeRecipe]
        { availableIngredients := some ["flour"], minMatchPercentage := some 50 } =
        Response.ok data ∧
      data.map (fun m => (m.recipe.title, m.ingredientMatchPercentage)) =
        [("vanilla batter", JsNum.num 67), ("pancakes", JsNum.num 50)] := by
  obtain ⟨data, _, h, _⟩ := postMatchIngredients_spec [cakeRecipe, vanillaRecipe, pancakeRecipe]
    { availableIngredients := some ["flour"], minMatchPercentage := some 50 } ["flour"]
    (by
      intro recipe hr
      simp only [List.mem_cons, List.mem_singleton, List.not_mem_nil, or_false] at hr
      rcases hr with rfl | rfl | rfl <;> decide)
    rfl (by decide)
  refine ⟨data, h, ?_⟩
  have h' : postMatchIngredients [cakeRecipe, vanillaRecipe, pancakeRecipe]
      { availableIngredients := some ["flour"], minMatchPercentage := some 50 } =
      Response.ok [⟨vanillaRecipe, JsNum.num 67, [milk]⟩,
        ⟨pancakeRecipe, JsNum.num 50, [milk]⟩] := by decide!
  rw [h'] at h
  rw [← Response.ok.inj h]
  rfl

/-- C21, as stated, fails: for the request `milk`, amount 0, unit `''`,
restrictions `['vegan']`, the handler returns `almond milk` (ratio 1) with
`adjustedAmount` 1, not `0 * 1 = 0`, and `adjustedUnit` `'unit'`, not the given
`''`: both tests are truthiness tests. -/
theorem postSubstitutions_counterexample :
    postSubstitutions (tableStore milkTable)
        { ingredientName := some "milk", amount := some 0, unit := some "",
          dietaryRestrictions := some ["vegan"] } =
        Response.ok
          [{ substitute := almondMilk, adjustedAmount := 1, adjustedUnit := "unit",
             originalAmount := some 0, originalUnit := some "" }] ∧
      (1 : ℚ) ≠ 0 * almondMilk.ratio ∧ "unit" ≠ "" := by
  refine ⟨by decide!, ?_, by decide⟩
  norm_num

/-- C21, amended: when the lookup for a non-empty name finds substitutes,
`POST /substitutions` answers 200 with one record per substitute found, in
order; in each, `adjustedAmount = amount * ratio` if a non-zero amount is
given and `adjustedAmount = ratio` if no amount or the amount 0 is given, and
`adjustedUnit` is the unit if a non-empty unit is given and `'unit'` if no unit
or the empty unit is given. -/
theorem postSubstitutions_spec (store : SubstitutionStore) (body : SubstitutionsRequest)
    (name : String) (found : List FoundSubstitute)
    (hname : body.ingredientName = some name) (hne : name ≠ "")
    (hfound : findSubstitutions store name (body.dietaryRestrictions.getD []) =
      Except.ok found)
    (hsome : found ≠ []) :
    ∃ data, postSubstitutions store body = Response.ok data ∧
      data.map (fun f => f.substitute) = found.map (fun f => f.substitute) ∧
      ∀ f ∈ data,
        (∀ amount : ℚ, body.amount = some amount → amount ≠ 0 →
          f.adjustedAmount = amount * f.substitute.ratio) ∧
        (body.amount = none ∨ body.amount = some 0 →
          f.adjustedAmount = f.substitute.ratio) ∧
        (∀ unit : String, body.unit = some unit → unit ≠ "" → f.adjustedUnit = unit) ∧
        (body.unit = none ∨ body.unit = some "" → f.adjustedUnit = "unit") := by
  have hlen : ¬ found.length = 0 := by
    simpa using hsome
  have hdata : postSubstitutions store body =
      Response.ok (found.map fun sub =>
        { substitute := sub.substitute
          adjustedAmount :=
            match body.amount with
            | some amount =>
              if (JsNum.num amount).truthy then amount * sub.substitute.ratio
              else sub.substitute.ratio
            | none => sub.substitute.ratio
          adjustedUnit :=
            match body.unit with
            | some unit => if unit = "" then "unit" else unit
            | none => "unit"
          originalAmount := body.amount
          originalUnit := body.unit }) := by
    simp only [postSubstitutions, hname, if_neg hne, hfound, if_neg hlen]
  refine ⟨_, hdata, ?_, ?_⟩
  · simp [List.map_map, Function.comp_def]
  · intro f hf
    obtain ⟨sub, _, rfl⟩ := List.mem_map.1 hf
    refine ⟨?_, ?_, ?_, ?_⟩
    · intro amount ha hnz
      simp [ha, JsNum.truthy, hnz]
    · rintro (ha | ha) <;> simp [ha, JsNum.truthy]
    · intro unit hu hnu
      simp [hu, hnu]
    · rintro (hu | hu) <;> simp [hu]

/-- Witness for C21 as amended: `Milk`, 2 cups: both substitutes with
`adjustedAmount` 2 and `adjustedUnit` `cups`. -/
theorem postSubstitutions_spec_witness :
    ∃ data, postSubstitutions (tableStore milkTable)
        { ingredientName := some "Milk", amount := some 2, unit := some "cups" } =
        Response.ok data ∧
      data.map (fun f => (f.substitute.ingredient, f.adjustedAmount, f.adjustedUnit)) =
        [("almond milk", 2, "cups"), ("goat milk", 2, "cups")] := by
  obtain ⟨data, h, _⟩ := postSubstitutions_spec (tableStore milkTable)
    { ingredientName := some "Milk", amount := some 2, unit := some "cups" } "Milk"
    [⟨almondMilk, 1⟩, ⟨goatMilk, 1⟩] rfl (by decide) (by decide) (by decide)
  refine ⟨data, h, ?_⟩
  have h' : postSubstitutions (tableStore milkTable)
      { ingredientName := some "Milk", amount := some 2, unit := some "cups" } =
      Response.ok [⟨almondMilk, 2, "cups", some 2, some "cups"⟩,
        ⟨goatMilk, 2, "cups", some 2, some "cups"⟩] := by decide!
  rw [h'] at h
  rw [← Response.ok.inj h]
  decide!

end RecipeOptimizer
